import Mathlib

/-!
Verification development for the packet-commander repository.

The firmware side (src/firmware/patcom.cpp) is modelled as pure Lean
functions over an explicit `DeviceState`, with side effects (serial
output, flash writes, HTTP requests, restarts) reified as an `Effect`
list.  The coordinator side (src/src/services/DiscoveryService.ts and
src/src/services/ConfigService.ts) is modelled likewise.

JSON payloads are modelled by an executable recursive-descent parser
over character lists mirroring the strict-JSON subset that the
firmware's ArduinoJson `deserializeJson` accepts on the payloads in
scope (lowercase `true`/`false`/`null` literals, quoted keys, integer
numbers; `\uXXXX` escapes and floats are not modelled).
-/

namespace Patcom

/-- ASCII lowercase test, as used by the AVR/ESP `toupper` that backs
Arduino `String.toUpperCase`. -/
def isLowerAscii (c : Char) : Bool := 97 ≤ c.toNat && c.toNat ≤ 122

/-- ASCII uppercase of one character (Arduino `String.toUpperCase` is a
byte-wise ASCII `toupper`). -/
def charUpper (c : Char) : Char :=
  if h : 97 ≤ c.toNat ∧ c.toNat ≤ 122 then
    Char.ofNatAux (c.toNat - 32)
      (Or.inl (by omega))
  else c

/-- Arduino `String::toUpperCase` applied to a whole string. -/
def strUpper (s : String) : String := String.mk (s.data.map charUpper)

/-- Arduino `String::substring(n)` (drop the first `n` characters). -/
def sDropL (s : String) (n : Nat) : String := String.mk (s.data.drop n)

/-- Arduino `String::startsWith`. -/
def strStarts (s t : String) : Bool := s.data.take t.data.length == t.data

/-- Arduino `String::toInt` (atol): optional sign, then leading digits;
0 when no digits are present. -/
def strToInt (s : String) : Int :=
  let core := fun (l : List Char) =>
    (l.takeWhile Char.isDigit).foldl (fun (a : Nat) c => a * 10 + (c.toNat - 48)) 0
  match s.data with
  | '-' :: rest => -(core rest : Int)
  | '+' :: rest => (core rest : Int)
  | l => (core l : Int)

/-- JSON documents as ArduinoJson materialises them. -/
inductive Json where
  | null : Json
  | bool : Bool → Json
  | num : Int → Json
  | str : String → Json
  | arr : List Json → Json
  | obj : List (String × Json) → Json

/-- `doc.containsKey k` on a JSON document. -/
def Json.containsKey (j : Json) (k : String) : Bool :=
  match j with
  | .obj fs => fs.any (fun kv => kv.1 == k)
  | _ => false

/-- `doc[k]`: member access, yielding the null variant when absent or
when the receiver is not an object. -/
def Json.get (j : Json) (k : String) : Json :=
  match j with
  | .obj fs =>
    match fs.find? (fun kv => kv.1 == k) with
    | some kv => kv.2
    | none => .null
  | _ => .null

/-- `as<const char*>` : some string exactly on string variants. -/
def Json.asStr (j : Json) : Option String :=
  match j with
  | .str s => some s
  | _ => none

/-- `as<int>` : some integer exactly on numeric variants. -/
def Json.asInt (j : Json) : Option Int :=
  match j with
  | .num n => some n
  | _ => none

/-- `as<bool>` : some boolean exactly on boolean variants. -/
def Json.asBool (j : Json) : Option Bool :=
  match j with
  | .bool b => some b
  | _ => none

/-- `as<JsonArray>` : some list exactly on array variants. -/
def Json.asArr (j : Json) : Option (List Json) :=
  match j with
  | .arr xs => some xs
  | _ => none

/-- Top-level keys of a JSON object ([] for non-objects). -/
def Json.keys (j : Json) : List String :=
  match j with
  | .obj fs => fs.map (fun kv => kv.1)
  | _ => []

/-- JSON whitespace. -/
def isWs (c : Char) : Bool := c == ' ' || c == '\n' || c == '\t' || c == '\r'

/-- Skip leading JSON whitespace. -/
def skipWs (l : List Char) : List Char := l.dropWhile isWs

/-- Parse the body of a string literal (after the opening quote), up to
and including the closing quote.  A backslash escapes the next
character verbatim. -/
def parseStringAux : Nat → List Char → Option (List Char × List Char)
  | 0, _ => none
  | _ + 1, [] => none
  | fuel + 1, c :: rest =>
    if c == '"' then some ([], rest)
    else if c == '\\' then
      match rest with
      | [] => none
      | d :: rest2 =>
        match parseStringAux fuel rest2 with
        | some (s, r) => some (d :: s, r)
        | none => none
    else
      match parseStringAux fuel rest with
      | some (s, r) => some (c :: s, r)
      | none => none

/-- Expect the given literal characters at the head of the input. -/
def expectLit (lit l : List Char) : Option (List Char) :=
  if l.take lit.length == lit then some (l.drop lit.length) else none

/-- Parse an integer JSON number (optional minus, then digits). -/
def parseNum (l : List Char) : Option (Json × List Char) :=
  match l with
  | '-' :: rest =>
    let ds := rest.takeWhile Char.isDigit
    if ds.isEmpty then none
    else some (.num (-(ds.foldl (fun a c => a * 10 + (c.toNat - 48)) 0 : Int)),
      rest.dropWhile Char.isDigit)
  | _ =>
    let ds := l.takeWhile Char.isDigit
    if ds.isEmpty then none
    else some (.num (ds.foldl (fun a c => a * 10 + (c.toNat - 48)) 0 : Int),
      l.dropWhile Char.isDigit)

mutual

/-- Parse one JSON value. -/
def parseVal : Nat → List Char → Option (Json × List Char)
  | 0, _ => none
  | fuel + 1, l =>
    match skipWs l with
    | [] => none
    | '"' :: rest =>
      match parseStringAux (fuel + 1) rest with
      | some (s, r) => some (.str (String.mk s), r)
      | none => none
    | '{' :: rest =>
      match skipWs rest with
      | '}' :: r2 => some (.obj [], r2)
      | l2 =>
        match parseObjFields fuel l2 with
        | some (fs, r) => some (.obj fs, r)
        | none => none
    | '[' :: rest =>
      match skipWs rest with
      | ']' :: r2 => some (.arr [], r2)
      | l2 =>
        match parseArrElems fuel l2 with
        | some (xs, r) => some (.arr xs, r)
        | none => none
    | 't' :: rest =>
      match expectLit ['r', 'u', 'e'] rest with
      | some r => some (.bool true, r)
      | none => none
    | 'f' :: rest =>
      match expectLit ['a', 'l', 's', 'e'] rest with
      | some r => some (.bool false, r)
      | none => none
    | 'n' :: rest =>
      match expectLit ['u', 'l', 'l'] rest with
      | some r => some (.null, r)
      | none => none
    | l1 => parseNum l1

/-- Parse the members of a JSON object (first member onward). -/
def parseObjFields : Nat → List Char → Option (List (String × Json) × List Char)
  | 0, _ => none
  | fuel + 1, l =>
    match skipWs l with
    | '"' :: rest =>
      match parseStringAux (fuel + 1) rest with
      | some (k, r1) =>
        match skipWs r1 with
        | ':' :: r2 =>
          match parseVal fuel r2 with
          | some (v, r3) =>
            match skipWs r3 with
            | ',' :: r4 =>
              match parseObjFields fuel r4 with
              | some (fs, r5) => some ((String.mk k, v) :: fs, r5)
              | none => none
            | '}' :: r4 => some ([(String.mk k, v)], r4)
            | _ => none
          | none => none
        | _ => none
      | none => none
    | _ => none

/-- Parse the elements of a JSON array (first element onward). -/
def parseArrElems : Nat → List Char → Option (List Json × List Char)
  | 0, _ => none
  | fuel + 1, l =>
    match parseVal fuel l with
    | some (v, r1) =>
      match skipWs r1 with
      | ',' :: r2 =>
        match parseArrElems fuel r2 with
        | some (xs, r3) => some (v :: xs, r3)
        | none => none
      | ']' :: r2 => some ([v], r2)
      | _ => none
    | none => none

end

/-- `deserializeJson`: parse a whole document; trailing content other
than whitespace is rejected. -/
def deserializeJson (s : String) : Option Json :=
  match parseVal (s.data.length + 1) s.data with
  | some (j, r) => if (skipWs r).isEmpty then some j else none
  | none => none

mutual

/-- `serializeJson` (compact ArduinoJson output). -/
def serializeJson : Json → String
  | .null => "null"
  | .bool true => "true"
  | .bool false => "false"
  | .num n => toString n
  | .str s => "\"" ++ s ++ "\""
  | .arr xs => "[" ++ serializeArr xs ++ "]"
  | .obj fs => "\x7b" ++ serializeObj fs ++ "\x7d"

/-- Comma-separated serialization of array elements. -/
def serializeArr : List Json → String
  | [] => ""
  | [x] => serializeJson x
  | x :: xs => serializeJson x ++ "," ++ serializeArr xs

/-- Comma-separated serialization of object members. -/
def serializeObj : List (String × Json) → String
  | [] => ""
  | [kv] => "\"" ++ kv.1 ++ "\":" ++ serializeJson kv.2
  | kv :: fs => "\"" ++ kv.1 ++ "\":" ++ serializeJson kv.2 ++ "," ++ serializeObj fs

end

/-! ### The uppercased-input invariant

`processSerialCommand` uppercases the whole command line before the
`SET_CONFIG:` payload is extracted, so the parsed document can never
contain a key with an ASCII lowercase letter.  The lemmas below track
this through the parser. -/

/-- No character of the list is ASCII lowercase. -/
def noLowerL (l : List Char) : Prop := ∀ c ∈ l, isLowerAscii c = false

/-- All top-level object keys are free of ASCII lowercase letters. -/
def topKeysOK : Json → Prop
  | .obj fs => ∀ kv ∈ fs, noLowerL kv.1.data
  | _ => True

/-! ### Firmware state (src/firmware/patcom.cpp)

Global configuration and runtime state of the device, gathered into one
record.  Timing fields (`millis()`-derived), the ADC battery read and
float formatting are not modelled; the battery voltage is kept as its
already-rendered string.  Side effects are reified as `Effect`s. -/

/-- `struct ButtonConfig` (the action enum is kept as its integer
value, as stored in preferences and JSON). -/
structure ButtonConfig where
  name : String
  action : Int
  actionData : String
  enabled : Bool
deriving DecidableEq

/-- `ACTION_NONE` -/
def ACTION_NONE : Int := 0
/-- `ACTION_HTTP` -/
def ACTION_HTTP : Int := 1
/-- `ACTION_SERIAL` -/
def ACTION_SERIAL : Int := 2
/-- `ACTION_MIDI` -/
def ACTION_MIDI : Int := 3
/-- `ACTION_SCRIPT` -/
def ACTION_SCRIPT : Int := 4
/-- `ACTION_OSC` -/
def ACTION_OSC : Int := 5
/-- `ACTION_WEBHOOK` -/
def ACTION_WEBHOOK : Int := 6

/-- `struct NetworkConfig` -/
structure NetworkConfig where
  ssid : String
  password : String
  staticIP : Bool
  ip : String
  subnet : String
  gateway : String
  dns : String
deriving DecidableEq

/-- `struct DeviceConfig` -/
structure DeviceConfig where
  deviceName : String
  deviceId : String
  deviceType : Int
  brightness : Int
  discoverable : Bool
  heartbeatInterval : Int
  firmwareVersion : String
  autoSync : Bool
  configServerUrl : String
deriving DecidableEq

/-- `struct ApiKeyEntry` -/
structure ApiKeyEntry where
  name : String
  value : String
  active : Bool
deriving DecidableEq

/-- The firmware's global state relevant to the serial/UDP control
plane. -/
structure DeviceState where
  buttonConfigs : List ButtonConfig
  networkConfig : NetworkConfig
  deviceConfig : DeviceConfig
  apiKeys : List ApiKeyEntry
  customConfig : String
  lastConfigHash : String
  wifiConnected : Bool
  configMode : Bool
  ledStates : List Bool
  batteryVoltageStr : String
deriving DecidableEq

/-- Side effects of processing one request. -/
inductive Effect where
  | serialLine : String → Effect
  | response : String → Bool → String → Effect
  | deviceInfo : Effect
  | save : Effect
  | restart : Effect
  | http : String → String → String → Effect
  | event : Nat → String → Effect
  | udpReply : String → Effect
deriving DecidableEq

/-- The HTTP/webhook network requests among a list of effects. -/
def httpEffects (effs : List Effect) : List Effect :=
  effs.filter fun e => match e with
    | .http _ _ _ => true
    | _ => false

/-- `generateConfigHash`'s input string: deviceName, brightness, ssid,
then per button name, action and actionData (patcom.cpp:1227-1238). -/
def configString (st : DeviceState) : String :=
  st.deviceConfig.deviceName ++ toString st.deviceConfig.brightness ++
    st.networkConfig.ssid ++
    String.join (st.buttonConfigs.map fun b =>
      b.name ++ toString b.action ++ b.actionData)

/-- One step of the `hash = hash * 31 + c` fold on `uint32_t`. -/
def hashStep (h : Nat) (c : Char) : Nat := (h * 31 + c.toNat) % 4294967296

/-- The `uint32_t` fold over all characters of the config string. -/
def hashFold (s : String) : Nat := s.data.foldl hashStep 0

/-- `String(hash, HEX)` (lowercase hex digits, no padding). -/
def natToHex (n : Nat) : String := String.mk (Nat.toDigits 16 n)

/-- `generateConfigHash` (patcom.cpp:1227-1247). -/
def generateConfigHash (st : DeviceState) : String :=
  natToHex (hashFold (configString st))

/-- `saveConfiguration` (patcom.cpp:422-473): writes every config field
to preferences and recomputes the cached hash. -/
def saveConfiguration (st : DeviceState) : DeviceState × List Effect :=
  ({ st with lastConfigHash := generateConfigHash st },
   [.save, .serialLine "Configuration saved to flash"])

/-- The `device` section of `handleConfigUpload`
(patcom.cpp:978-988). -/
def applyDeviceSection (doc : Json) (st : DeviceState) : DeviceState :=
  if doc.containsKey "device" then
    let dev := doc.get "device"
    let dc0 := st.deviceConfig
    let dc1 := if dev.containsKey "name" then
        { dc0 with deviceName := (dev.get "name").asStr.getD "" } else dc0
    let dc2 := if dev.containsKey "brightness" then
        { dc1 with brightness := (dev.get "brightness").asInt.getD 0 } else dc1
    let dc3 := if dev.containsKey "discoverable" then
        { dc2 with discoverable := (dev.get "discoverable").asBool.getD false } else dc2
    { st with deviceConfig := dc3 }
  else st

/-- The `network` section of `handleConfigUpload`
(patcom.cpp:991-1010); note `dns` is never updated here. -/
def applyNetworkSection (doc : Json) (st : DeviceState) : DeviceState :=
  if doc.containsKey "network" then
    let net := doc.get "network"
    let nc0 := st.networkConfig
    let nc1 := if net.containsKey "ssid" then
        { nc0 with ssid := (net.get "ssid").asStr.getD "" } else nc0
    let nc2 := if net.containsKey "password" then
        { nc1 with password := (net.get "password").asStr.getD "" } else nc1
    let nc3 := if net.containsKey "staticIP" then
        { nc2 with staticIP := (net.get "staticIP").asBool.getD false } else nc2
    let nc4 := if net.containsKey "ip" then
        { nc3 with ip := (net.get "ip").asStr.getD "" } else nc3
    let nc5 := if net.containsKey "subnet" then
        { nc4 with subnet := (net.get "subnet").asStr.getD "" } else nc4
    let nc6 := if net.containsKey "gateway" then
        { nc5 with gateway := (net.get "gateway").asStr.getD "" } else nc5
    { st with networkConfig := nc6 }
  else st

/-- One iteration of the `buttons` loop of `handleConfigUpload`
(patcom.cpp:1015-1029). -/
def applyOneButton (bs : List ButtonConfig) (btn : Json) : List ButtonConfig :=
  let id := (btn.get "id").asInt.getD 0
  if 0 ≤ id ∧ id < 8 then
    match bs.get? id.toNat with
    | some old =>
      bs.set id.toNat
        { name := (btn.get "name").asStr.getD ("Button " ++ toString id)
          action := (btn.get "action").asInt.getD ACTION_NONE
          enabled := (btn.get "enabled").asBool.getD true
          actionData :=
            if btn.containsKey "config" then serializeJson (btn.get "config")
            else old.actionData }
    | none => bs
  else bs

/-- The `buttons` section of `handleConfigUpload`
(patcom.cpp:1013-1030). -/
def applyButtonsSection (doc : Json) (st : DeviceState) : DeviceState :=
  if doc.containsKey "buttons" then
    { st with buttonConfigs :=
        ((doc.get "buttons").asArr.getD []).foldl applyOneButton st.buttonConfigs }
  else st

/-- `handleConfigUpload(String configJson)` on the serial/UDP path
(`server.client()` is false there), patcom.cpp:963-1049. -/
def handleConfigUpload (configJson : String) (st : DeviceState) :
    DeviceState × List Effect :=
  match deserializeJson configJson with
  | none =>
    (st, [.serialLine "Failed to parse configuration JSON",
          .response "config_upload" false "Invalid JSON"])
  | some doc =>
    let st1 := applyDeviceSection doc st
    let st2 := applyNetworkSection doc st1
    let st3 := applyButtonsSection doc st2
    let (st4, saveEffs) := saveConfiguration st3
    let effs := saveEffs ++
      [.serialLine "Configuration updated successfully",
       .response "config_upload" true "Configuration updated successfully"]
    if doc.containsKey "network" then
      (st4, effs ++
        [.serialLine "Network configuration changed - restarting in 3 seconds...",
         .restart])
    else
      (st4, effs)

/-- `executeHttpAction` (patcom.cpp:659-710).  The HTTP response code
handling (LED feedback) depends on the network collaborator and is not
modelled; the emitted request is. -/
def executeHttpAction (actionData : String) (st : DeviceState) : List Effect :=
  if st.wifiConnected = false then
    [.serialLine "WiFi not connected - cannot execute HTTP action"]
  else
    let config := (deserializeJson actionData).getD .null
    let url := (config.get "url").asStr.getD ""
    let method := (config.get "method").asStr.getD "POST"
    let body := (config.get "body").asStr.getD ""
    if url = "" then [.serialLine "No URL configured for HTTP action"]
    else [.http url method body]

/-- `executeSerialAction` (patcom.cpp:712-720). -/
def executeSerialAction (actionData : String) : List Effect :=
  let config := (deserializeJson actionData).getD .null
  let command := (config.get "command").asStr.getD ""
  if command = "" then [] else [.serialLine ("SERIAL_CMD:" ++ command)]

/-- `executeMidiAction` (patcom.cpp:722-737). -/
def executeMidiAction (actionData : String) : List Effect :=
  let config := (deserializeJson actionData).getD .null
  let note := (config.get "note").asInt.getD 60
  let velocity := (config.get "velocity").asInt.getD 127
  let channel := (config.get "channel").asInt.getD 1
  [.serialLine ("MIDI_NOTE:" ++ toString channel ++ "," ++ toString note ++
    "," ++ toString velocity)]

/-- `executeScriptAction` (patcom.cpp:739-747). -/
def executeScriptAction (actionData : String) : List Effect :=
  let config := (deserializeJson actionData).getD .null
  let code := (config.get "code").asStr.getD ""
  if code = "" then [] else [.serialLine ("SCRIPT:" ++ code)]

/-- `executeOscAction` (patcom.cpp:749-765). -/
def executeOscAction (actionData : String) : List Effect :=
  let config := (deserializeJson actionData).getD .null
  let address := (config.get "address").asStr.getD ""
  let host := (config.get "host").asStr.getD ""
  let port := (config.get "port").asInt.getD 8000
  if address ≠ "" ∧ host ≠ "" then
    [.serialLine ("OSC:" ++ host ++ ":" ++ toString port ++ " " ++ address)]
  else []

/-- `executeWebhookAction` (patcom.cpp:767-824).  The fixed payload
envelope is serialized without the float battery field (floats are not
modelled); the `timestamp`/`millis()` field is likewise elided. -/
def executeWebhookAction (buttonIndex : Nat) (actionData : String)
    (st : DeviceState) : List Effect :=
  if st.wifiConnected = false then
    [.serialLine "WiFi not connected - cannot execute webhook"]
  else
    let config := (deserializeJson actionData).getD .null
    let url := (config.get "url").asStr.getD ""
    if url = "" then [.serialLine "No webhook URL configured"]
    else
      let payload := Json.obj
        [("device_id", .str st.deviceConfig.deviceId),
         ("device_name", .str st.deviceConfig.deviceName),
         ("button", .num buttonIndex),
         ("button_name", .str (((st.buttonConfigs.get? buttonIndex).getD
            ⟨"", 0, "", false⟩).name))]
      [.http url "POST" (serializeJson payload)]

/-- `executeAction` (patcom.cpp:629-657). -/
def executeAction (buttonIndex : Nat) (st : DeviceState) : List Effect :=
  let b := (st.buttonConfigs.get? buttonIndex).getD ⟨"", 0, "", false⟩
  if b.action = ACTION_HTTP then executeHttpAction b.actionData st
  else if b.action = ACTION_SERIAL then executeSerialAction b.actionData
  else if b.action = ACTION_MIDI then executeMidiAction b.actionData
  else if b.action = ACTION_SCRIPT then executeScriptAction b.actionData
  else if b.action = ACTION_OSC then executeOscAction b.actionData
  else if b.action = ACTION_WEBHOOK then
    executeWebhookAction buttonIndex b.actionData st
  else [.serialLine ("No action configured for button " ++ toString buttonIndex)]

/-- The dispatch outcome of a button press, following the control flow
of `handleButtonPress`/`executeAction`: a press is skipped (no action
executed) when the slot is disabled or its action is `ACTION_NONE`. -/
inductive DispatchResult where
  | skipped : DispatchResult
  | executed : DispatchResult
deriving DecidableEq

/-- Classify a press per the branches of patcom.cpp:613-615 and 652-655. -/
def dispatchResult (st : DeviceState) (buttonIndex : Nat) : DispatchResult :=
  let b := (st.buttonConfigs.get? buttonIndex).getD ⟨"", 0, "", false⟩
  if b.enabled = false then .skipped
  else if b.action = ACTION_NONE then .skipped
  else .executed

/-- `handleButtonPress` (patcom.cpp:601-627).  `updateActivity` touches
only power-management timing (not modelled). -/
def handleButtonPress (buttonIndex : Nat) (st : DeviceState) :
    DeviceState × List Effect :=
  if buttonIndex ≥ 8 then (st, [])
  else
    let b := (st.buttonConfigs.get? buttonIndex).getD ⟨"", 0, "", false⟩
    let newLeds := st.ledStates.set buttonIndex
      (!((st.ledStates.get? buttonIndex).getD false))
    let st' := { st with ledStates := newLeds }
    let actEffs := if b.enabled then executeAction buttonIndex st else []
    (st', [.serialLine ("Button " ++ toString buttonIndex ++ " (" ++ b.name ++
        ") pressed")] ++ actEffs ++ [.event buttonIndex b.name])

/-- The `CONFIG` serial reply document (patcom.cpp:880-897). -/
def configDump (st : DeviceState) : Json :=
  .obj
    [("device", .obj
        [("name", .str st.deviceConfig.deviceName),
         ("brightness", .num st.deviceConfig.brightness)]),
     ("network", .obj
        [("ssid", .str st.networkConfig.ssid),
         ("connected", .bool st.wifiConnected)]),
     ("buttons", .arr (st.buttonConfigs.enum.map fun ib =>
        .obj [("id", .num ib.1),
              ("name", .str ib.2.name),
              ("action", .num ib.2.action),
              ("enabled", .bool ib.2.enabled)]))]

/-- `processSerialCommand` (patcom.cpp:874-926).  The `BATTERY` branch's
ADC re-read is external input and is not modelled (the rendered voltage
string is reused); the `HELP` branch's banner lines are kept partially. -/
def processSerialCommand (command : String) (st : DeviceState) :
    DeviceState × List Effect :=
  let cu := strUpper command
  if cu = "STATUS" then (st, [.deviceInfo])
  else if cu = "CONFIG" then
    (st, [.response "config" true (serializeJson (configDump st))])
  else if strStarts cu "SET_CONFIG:" then
    handleConfigUpload (sDropL cu 11) st
  else if strStarts cu "TEST:" then
    let buttonIndex := strToInt (sDropL cu 5)
    if 0 ≤ buttonIndex ∧ buttonIndex < 8 then
      let (st', effs) := handleButtonPress buttonIndex.toNat st
      (st', effs ++ [.response "test" true
        ("Button " ++ toString buttonIndex ++ " triggered")])
    else (st, [])
  else if cu = "WIFI" then
    (st, [.response "wifi" true (if st.wifiConnected then "Connected" else "Disconnected")])
  else if cu = "BATTERY" then
    (st, [.response "battery" true (st.batteryVoltageStr ++ "V")])
  else if cu = "HELP" then
    (st, [.serialLine "=== PATCOM Commands ==="])
  else
    (st, [.response "error" false "Unknown command"])

/-! ### Button polling and debounce (patcom.cpp:294-302) -/

/-- `BUTTON_DEBOUNCE` (patcom.cpp:19), in milliseconds. -/
def BUTTON_DEBOUNCE : Nat := 200

/-- One polling iteration for one button: `lastPress` is
`lastButtonPress[i]`; a sample is the `millis()` value of the loop tick
together with whether `digitalRead(buttonPins[i]) == LOW` (pressed).
Returns the updated `lastButtonPress[i]` and whether a press event is
emitted (`handleButtonPress` is invoked). -/
def debounceStep (lastPress : Nat) (sample : Nat × Bool) : Nat × Bool :=
  if sample.2 ∧ sample.1 - lastPress > BUTTON_DEBOUNCE then (sample.1, true)
  else (lastPress, false)

/-- Run the polling loop over a trace of samples, collecting the times
at which a press event is emitted. -/
def runDebounce (lastPress : Nat) : List (Nat × Bool) → Nat × List Nat
  | [] => (lastPress, [])
  | s :: rest =>
    let p := debounceStep lastPress s
    let q := runDebounce p.1 rest
    (q.1, (if p.2 then [s.1] else []) ++ q.2)

/-! ### UDP config service (patcom.cpp:1130-1189) -/

/-- The `config_response` document of `handleConfigRequest`'s
`get_config` branch (patcom.cpp:1138-1169): redacted network section
(`ssid`, `staticIP`, `ip` only — no password), device section, and all
button slots with their parsed action parameters. -/
def buildConfigResponse (st : DeviceState) : Json :=
  .obj
    [("type", .str "config_response"),
     ("device_id", .str st.deviceConfig.deviceId),
     ("config_hash", .str (generateConfigHash st)),
     ("device", .obj
        [("name", .str st.deviceConfig.deviceName),
         ("type", .num st.deviceConfig.deviceType),
         ("brightness", .num st.deviceConfig.brightness),
         ("discoverable", .bool st.deviceConfig.discoverable),
         ("auto_sync", .bool st.deviceConfig.autoSync)]),
     ("network", .obj
        [("ssid", .str st.networkConfig.ssid),
         ("staticIP", .bool st.networkConfig.staticIP),
         ("ip", .str st.networkConfig.ip)]),
     ("buttons", .arr (st.buttonConfigs.enum.map fun ib =>
        .obj [("id", .num ib.1),
              ("name", .str ib.2.name),
              ("action", .num ib.2.action),
              ("enabled", .bool ib.2.enabled),
              ("config", (deserializeJson ib.2.actionData).getD .null)]))]

/-- `handleConfigRequest` (patcom.cpp:1130-1189). -/
def handleConfigRequest (request : String) (st : DeviceState) :
    DeviceState × List Effect :=
  let requestDoc := (deserializeJson request).getD .null
  let requestType := (requestDoc.get "type").asStr.getD ""
  if requestType = "get_config" then
    (st, [.udpReply (serializeJson (buildConfigResponse st))])
  else if requestType = "set_config" then
    let (st', effs) := handleConfigUpload request st
    (st', effs ++ [.udpReply (serializeJson (Json.obj
      [("type", .str "config_update_response"),
       ("success", .bool true),
       ("message", .str "Configuration updated"),
       ("config_hash", .str (generateConfigHash st'))]))])
  else (st, [])

/-! ### Firmware-side validation (patcom.cpp:1249-1304) -/

/-- `isValidUrl` (patcom.cpp:1301-1304). -/
def fwIsValidUrl (url : String) : Bool :=
  strStarts url "http://" || strStarts url "https://"

/-- One octet of a dotted-quad address: digits valued 0-255. -/
def ipOctetOk (s : String) : Bool :=
  (!s.data.isEmpty) && s.data.all Char.isDigit && s.data.length ≤ 3 &&
    decide ((s.data.foldl (fun (a : Nat) c => a * 10 + (c.toNat - 48)) 0) ≤ 255)

/-- `isValidIP` (patcom.cpp:1296-1299): models Arduino
`IPAddress::fromString` as accepting exactly dotted quads of 0-255. -/
def fwIsValidIP (ip : String) : Bool :=
  let parts := ip.splitOn "."
  parts.length == 4 && parts.all ipOctetOk

/-- `validateConfiguration` (patcom.cpp:1249-1294), returning the list
of error messages it prints (the code only prints and flashes LEDs; an
empty list means validation passed).  A missing `url` in the action
data is modelled as the empty string. -/
def validateConfiguration (st : DeviceState) : List String :=
  (if st.networkConfig.staticIP then
    (if fwIsValidIP st.networkConfig.ip then []
     else ["ERROR: Invalid static IP address"]) ++
    (if fwIsValidIP st.networkConfig.gateway then []
     else ["ERROR: Invalid gateway address"])
  else []) ++
  (st.buttonConfigs.enum.filterMap fun ib =>
    if ib.2.action = ACTION_HTTP ∨ ib.2.action = ACTION_WEBHOOK then
      let url := (((deserializeJson ib.2.actionData).getD .null).get "url").asStr.getD ""
      if url ≠ "" ∧ fwIsValidUrl url = false then
        some ("ERROR: Invalid URL for button " ++ toString ib.1)
      else none
    else none)

/-- The firmware's default configuration as `loadConfiguration`
materialises it from an empty preferences store (patcom.cpp:368-420);
the hardware-derived device id is abbreviated. -/
def defaultState : DeviceState where
  buttonConfigs := (List.range 8).map fun i =>
    { name := "Button " ++ toString i, action := ACTION_NONE,
      actionData := "\x7b\x7d", enabled := true }
  networkConfig :=
    { ssid := "", password := "", staticIP := false, ip := "", subnet := "",
      gateway := "", dns := "8.8.8.8" }
  deviceConfig :=
    { deviceName := "PATCOM", deviceId := "PATCOM-ABC", deviceType := 0,
      brightness := 255, discoverable := true, heartbeatInterval := 5000,
      firmwareVersion := "2.1.0", autoSync := false, configServerUrl := "" }
  apiKeys := []
  customConfig := "\x7b\x7d"
  lastConfigHash := ""
  wifiConnected := true
  configMode := false
  ledStates := List.replicate 8 false
  batteryVoltageStr := "9.00"

/-! ### Coordinator side: DiscoveryService (src/src/services/DiscoveryService.ts) -/

/-- `DiscoveredDevice` (src/dist/types/index.d.ts; optional numeric
fields are kept concrete). -/
structure DiscoveredDevice where
  deviceId : String
  deviceName : String
  deviceType : Int
  version : String
  ip : String
  mac : String
  battery : Int
  uptime : Int
  configHash : String
  rssi : Int
  lastSeen : Int
deriving DecidableEq

/-- The `discoveredDevices` map, modelled as an association list in
insertion order (JS `Map` preserves insertion order). -/
abbrev Registry := List (String × DiscoveredDevice)

/-- `Map.get`. -/
def registryLookup (m : Registry) (k : String) : Option DiscoveredDevice :=
  match m.find? (fun p => p.1 == k) with
  | some p => some p.2
  | none => none

/-- The stale-device sweep inside `discoverDevices`
(DiscoveryService.ts:115-121): delete every record with
`lastSeen < now - 120000`.  The UDP broadcast it also performs carries
no registry state and is elided. -/
def discoverDevices (now : Int) (m : Registry) : Registry :=
  m.filter fun p => !(p.2.lastSeen < now - 120000 : Bool)

/-- `getDiscoveredDevices` (DiscoveryService.ts:126-128): just the
values of the map, no filtering. -/
def getDiscoveredDevices (m : Registry) : List DiscoveredDevice :=
  m.map fun p => p.2

/-! ### Coordinator side: ConfigService (src/src/services/ConfigService.ts) -/

/-- `ActionConfig` (the key/value parameters of one button). -/
structure ActionConfig where
  url : Option String
  method : Option String
  body : Option String
  secret : Option String
deriving DecidableEq

/-- `ButtonConfig` on the coordinator (action is the string enum
`'none' | 'http' | 'webhook' | ...`). -/
structure TSButton where
  id : Nat
  name : String
  action : String
  config : ActionConfig
  enabled : Bool
deriving DecidableEq

/-- `NetworkConfig` on the coordinator. -/
structure TSNetwork where
  ssid : String
  password : String
  staticIP : Bool
  ip : String
  subnet : String
  gateway : String
deriving DecidableEq

/-- `DeviceConfig` on the coordinator. -/
structure TSDevice where
  serialPort : String
  baudRate : Nat
  name : String
  brightness : Int
  deviceId : String
  deviceType : Int
  discoverable : Bool
  autoSync : Bool
  configServerUrl : String
deriving DecidableEq

/-- `ConfigData` — the coordinator's snapshot of a configuration. -/
structure ConfigData where
  buttons : List TSButton
  network : TSNetwork
  device : TSDevice
  apiKeys : List (String × String)
  customConfig : String
deriving DecidableEq

/-- The `set_config` UDP datagram that `syncConfigToDevice` emits. -/
structure SetConfigPacket where
  dest : String
  port : Nat
  deviceId : String
  config : ConfigData
deriving DecidableEq

/-- `syncConfigToDevice` (DiscoveryService.ts:130-149): looks the
device up, throws when unknown, and otherwise always sends one
`set_config` datagram to the device's last-known IP on port 12346 —
there is no hash comparison anywhere on this path. -/
def syncConfigToDevice (m : Registry) (deviceId : String)
    (configData : ConfigData) : Except String SetConfigPacket :=
  match registryLookup m deviceId with
  | none => .error "Device not found"
  | some device =>
    .ok { dest := device.ip, port := 12346, deviceId := device.deviceId,
          config := configData }

/-- Modelled from the spec: the coordinator-side snapshot hash.  The
source computes no hash on the coordinator; the spec's ConfigHash is
the firmware fold (deviceName, brightness, ssid, then per button name,
numeric action code and serialized params), mirrored here onto
`ConfigData` with the firmware's `ActionType` numbering. -/
def actionTypeCode (a : String) : Int :=
  if a = "http" then 1
  else if a = "serial" then 2
  else if a = "midi" then 3
  else if a = "script" then 4
  else if a = "osc" then 5
  else if a = "webhook" then 6
  else 0

/-- Modelled from the spec: serialization of one button's action
parameters as the firmware would store them. -/
def actionConfigJson (c : ActionConfig) : Json :=
  .obj (((c.url.map fun u => ("url", Json.str u)).toList) ++
        ((c.method.map fun v => ("method", Json.str v)).toList) ++
        ((c.body.map fun v => ("body", Json.str v)).toList) ++
        ((c.secret.map fun v => ("secret", Json.str v)).toList))

/-- Modelled from the spec: the ConfigHash of a coordinator snapshot
(same fold as firmware `generateConfigHash`). -/
def configDataHash (cfg : ConfigData) : String :=
  natToHex (hashFold (cfg.device.name ++ toString cfg.device.brightness ++
    cfg.network.ssid ++
    String.join (cfg.buttons.map fun b =>
      b.name ++ toString (actionTypeCode b.action) ++
        serializeJson (actionConfigJson b.config))))

/-- `isValidIP` (ConfigService.ts:136-139): the dotted-quad regex.  A
three-digit octet must match `25[0-5]`, `2[0-4]\d` or `[01]\d\d`. -/
def tsOctetOk (s : String) : Bool :=
  match s.data with
  | [a] => a.isDigit
  | [a, b] => a.isDigit && b.isDigit
  | [a, b, c] =>
    (a == '2' && b == '5' && c.isDigit && c.toNat ≤ 53) ||
    (a == '2' && b.isDigit && b.toNat ≤ 52 && c.isDigit) ||
    ((a == '0' || a == '1') && b.isDigit && c.isDigit)
  | _ => false

/-- `isValidIP` (ConfigService.ts:136-139). -/
def tsIsValidIP (ip : String) : Bool :=
  let parts := ip.splitOn "."
  parts.length == 4 && parts.all tsOctetOk

/-- `isValidUrl` (ConfigService.ts:141-148): `new URL(url)` must not
throw and the string must start with `http://` or `https://`.  The
WHATWG URL constructor is approximated: an http(s)-prefixed string
parses when a nonempty host follows the scheme. -/
def tsIsValidUrl (url : String) : Bool :=
  (strStarts url "http://" && decide (7 < url.data.length)) ||
  (strStarts url "https://" && decide (8 < url.data.length))

/-- `validateConfig` (ConfigService.ts:108-134): network IP checks when
`staticIP` is set, then per-button URL checks.  A button is flagged only
when its `url` is truthy (present and non-empty) and fails
`isValidUrl`; the result is `(isValid, errors)`. -/
def validateConfig (cfg : ConfigData) : Bool × List String :=
  let networkErrors :=
    if cfg.network.staticIP then
      (if tsIsValidIP cfg.network.ip then [] else ["Invalid static IP address"]) ++
      (if tsIsValidIP cfg.network.gateway then [] else ["Invalid gateway address"])
    else []
  let buttonErrors := cfg.buttons.enum.filterMap fun ib =>
    if ib.2.action = "http" ∨ ib.2.action = "webhook" then
      let u := ib.2.config.url.getD ""
      if u ≠ "" ∧ tsIsValidUrl u = false then
        some ("Invalid URL for button " ++ toString ib.1)
      else none
    else none
  let errors := networkErrors ++ buttonErrors
  (errors.isEmpty, errors)


/-! ### Concrete instances used in scenario checks -/

/-- A device state holding stored WiFi credentials. -/
def credState : DeviceState :=
  { defaultState with networkConfig :=
    { defaultState.networkConfig with ssid := "HOMENET", password := "hunter2" } }

/-- A state differing from `hashStateB` in password, static-IP address,
device id and button 0's enabled flag only. -/
def hashStateA : DeviceState :=
  { defaultState with
    networkConfig := { defaultState.networkConfig with
      password := "alpha", ip := "10.0.0.5" }
    deviceConfig := { defaultState.deviceConfig with deviceId := "PATCOM-A" } }

/-- See `hashStateA`. -/
def hashStateB : DeviceState :=
  { defaultState with
    networkConfig := { defaultState.networkConfig with
      password := "bravo", ip := "10.0.0.6" }
    deviceConfig := { defaultState.deviceConfig with deviceId := "PATCOM-B" }
    buttonConfigs := defaultState.buttonConfigs.set 0
      ({ name := "Button 0", action := ACTION_NONE, actionData := "\x7b\x7d",
         enabled := false }) }

/-- A discovered-device record template. -/
def baseDevice : DiscoveredDevice :=
  { deviceId := "PATCOM-ABC", deviceName := "PATCOM", deviceType := 0,
    version := "2.1.0", ip := "192.168.1.50", mac := "AA:BB:CC:DD:EE:FF",
    battery := 9, uptime := 1000, configHash := "1a2b", rssi := -40,
    lastSeen := 0 }

/-- A registry holding one record last seen at time 0. -/
def staleRegistry : Registry := [("PATCOM-ABC", baseDevice)]

/-- A record refreshed at time 1000. -/
def freshDevice : DiscoveredDevice := { baseDevice with lastSeen := 1000 }

/-- A registry holding one record refreshed at time 1000. -/
def freshRegistry : Registry := [("PATCOM-ABC", freshDevice)]

/-- A coordinator snapshot with default contents. -/
def cfg0 : ConfigData where
  buttons := (List.range 8).map fun i =>
    { id := i, name := "Button " ++ toString i, action := "none",
      config := { url := none, method := none, body := none, secret := none },
      enabled := true }
  network :=
    { ssid := "HOMENET", password := "", staticIP := false,
      ip := "", subnet := "", gateway := "" }
  device :=
    { serialPort := "", baudRate := 115200, name := "PATCOM",
      brightness := 255, deviceId := "PATCOM-ABC", deviceType := 0,
      discoverable := true, autoSync := false, configServerUrl := "" }
  apiKeys := []
  customConfig := "\x7b\x7d"

/-- A record whose last known hash equals the hash of `cfg0`. -/
def device0 : DiscoveredDevice := { baseDevice with configHash := configDataHash cfg0 }

/-- A registry holding `device0`. -/
def reg0 : Registry := [("PATCOM-ABC", device0)]

/-- A firmware state whose button 2 is disabled and whose button 3 has
action `ACTION_HTTP` with empty action parameters (no url). -/
def testState : DeviceState :=
  { defaultState with
    buttonConfigs :=
      ((defaultState.buttonConfigs.set 2
        { name := "Button 2", action := ACTION_NONE, actionData := "\x7b\x7d",
          enabled := false }).set 3
        { name := "Button 3", action := ACTION_HTTP, actionData := "\x7b\x7d",
          enabled := true }) }

/-- The `get_config` request datagram. -/
def getConfigReq : String := "\x7b\"type\":\"get_config\"\x7d"

/-- A coordinator snapshot whose button 3 has action `http` and no
url (the rest matches `cfg0`). -/
def c7cfg : ConfigData :=
  { cfg0 with
    buttons := cfg0.buttons.set 3
      ({ id := 3, name := "Button 3", action := "http",
         config := { url := none, method := none, body := none, secret := none },
         enabled := true }) }

/-- A coordinator snapshot whose button 0 has action `http` with a
non-empty url lacking an http(s) scheme. -/
def c7badcfg : ConfigData :=
  { cfg0 with
    buttons := cfg0.buttons.set 0
      ({ id := 0, name := "Button 0", action := "http",
         config := { url := some "notaurl", method := none,
                     body := none, secret := none },
         enabled := true }) }

/-- A firmware state whose button 3 has action `ACTION_HTTP` and empty
action parameters. -/
def c7state : DeviceState :=
  { defaultState with
    buttonConfigs := defaultState.buttonConfigs.set 3
      ({ name := "Button 3", action := ACTION_HTTP, actionData := "\x7b\x7d",
         enabled := true }) }

/-! ## Theorems -/

theorem toNat_ofNatAux (n : Nat) (h : n.isValidChar) :
    (Char.ofNatAux n h).toNat = n := rfl

theorem charUpper_not_lower (c : Char) : isLowerAscii (charUpper c) = false := by
  unfold charUpper
  split
  · next h =>
    simp only [isLowerAscii, toNat_ofNatAux]
    have h1 : ¬(97 ≤ c.toNat - 32) := by omega
    simp [h1]
  · next h =>
    rcases not_and_or.mp h with h1 | h1 <;> simp [isLowerAscii, h1]

theorem noLowerL_sublist {l₁ l₂ : List Char} (hs : l₁.Sublist l₂)
    (h : noLowerL l₂) : noLowerL l₁ :=
  fun c hc => h c (hs.mem hc)

theorem noLowerL_skipWs {l : List Char} (h : noLowerL l) : noLowerL (skipWs l) :=
  noLowerL_sublist (List.dropWhile_sublist _) h

theorem noLowerL_cons {c : Char} {l : List Char} (h : noLowerL (c :: l)) :
    isLowerAscii c = false ∧ noLowerL l :=
  ⟨h c (List.mem_cons_self c l), fun d hd => h d (List.mem_cons_of_mem c hd)⟩

theorem noLowerL_strUpper (s : String) : noLowerL (strUpper s).data := by
  intro c hc
  rcases List.mem_map.mp hc with ⟨a, _, rfl⟩
  exact charUpper_not_lower a

theorem parseStringAux_noLower :
    ∀ fuel l s r, noLowerL l → parseStringAux fuel l = some (s, r) →
      noLowerL s ∧ noLowerL r := by
  intro fuel
  induction fuel with
  | zero => intro l s r _ hp; simp [parseStringAux] at hp
  | succ fuel ih =>
    intro l s r hl hp
    match l with
    | [] => simp [parseStringAux] at hp
    | c :: rest =>
      obtain ⟨hc, hrest⟩ := noLowerL_cons hl
      by_cases hq : c = '"'
      · subst hq
        simp [parseStringAux] at hp
        obtain ⟨h1, h2⟩ := hp
        subst h1; subst h2
        exact ⟨fun c hc => absurd hc (List.not_mem_nil c), hrest⟩
      · by_cases hb : c = '\\'
        · subst hb
          simp [parseStringAux] at hp
          match rest with
          | [] => simp at hp
          | d :: rest2 =>
            obtain ⟨hd, hrest2⟩ := noLowerL_cons hrest
            simp at hp
            rcases hq2 : parseStringAux fuel rest2 with _ | ⟨s2, r2⟩ <;> rw [hq2] at hp
            · simp at hp
            · simp at hp
              obtain ⟨h1, h2⟩ := hp
              subst h1; subst h2
              obtain ⟨hs2, hr2⟩ := ih rest2 s2 r2 hrest2 hq2
              refine ⟨fun x hx => ?_, hr2⟩
              rcases List.mem_cons.mp hx with h | h
              · subst h; exact hd
              · exact hs2 x h
        · rw [show parseStringAux (fuel + 1) (c :: rest) =
              (match parseStringAux fuel rest with
               | some (s, r) => some (c :: s, r)
               | none => none) from by
            simp [parseStringAux, hq, hb]] at hp
          rcases hq2 : parseStringAux fuel rest with _ | ⟨s2, r2⟩ <;> rw [hq2] at hp
          · simp at hp
          · simp at hp
            obtain ⟨h1, h2⟩ := hp
            subst h1; subst h2
            obtain ⟨hs2, hr2⟩ := ih rest s2 r2 hrest hq2
            refine ⟨fun x hx => ?_, hr2⟩
            rcases List.mem_cons.mp hx with h | h
            · subst h; exact hc
            · exact hs2 x h

theorem expectLit_noLower {lit l r : List Char} (h : noLowerL l)
    (hp : expectLit lit l = some r) : noLowerL r := by
  unfold expectLit at hp
  split at hp
  · simp only [Option.some.injEq] at hp
    rw [← hp]
    exact noLowerL_sublist (List.drop_sublist _ _) h
  · simp at hp

theorem parseNum_noLower {l : List Char} {j : Json} {r : List Char}
    (h : noLowerL l) (hp : parseNum l = some (j, r)) :
    noLowerL r ∧ topKeysOK j := by
  unfold parseNum at hp
  split at hp
  · next rest =>
    by_cases hds : (List.takeWhile Char.isDigit rest).isEmpty = true
    · simp [hds] at hp
    · simp [hds] at hp
      obtain ⟨h1, h2⟩ := hp
      subst h2
      exact ⟨noLowerL_sublist (List.dropWhile_sublist _) (noLowerL_cons h).2,
        by rw [← h1]; trivial⟩
  · by_cases hds : (List.takeWhile Char.isDigit l).isEmpty = true
    · simp [hds] at hp
    · simp [hds] at hp
      obtain ⟨h1, h2⟩ := hp
      subst h2
      exact ⟨noLowerL_sublist (List.dropWhile_sublist _) h, by rw [← h1]; trivial⟩

/-- Parsing input free of ASCII lowercase letters yields documents whose
top-level object keys are free of ASCII lowercase letters (and leaves a
remainder that again has none). -/
theorem parse_noLower :
    ∀ fuel : Nat,
      (∀ l j r, noLowerL l → parseVal fuel l = some (j, r) →
        noLowerL r ∧ topKeysOK j) ∧
      (∀ l fs r, noLowerL l → parseObjFields fuel l = some (fs, r) →
        noLowerL r ∧ ∀ kv ∈ fs, noLowerL kv.1.data) ∧
      (∀ l xs r, noLowerL l → parseArrElems fuel l = some (xs, r) →
        noLowerL r) := by
  intro fuel
  induction fuel with
  | zero =>
    refine ⟨?_, ?_, ?_⟩ <;> intro l a r _ hp <;>
      simp [parseVal, parseObjFields, parseArrElems] at hp
  | succ fuel ih =>
    obtain ⟨ih1, ih2, ih3⟩ := ih
    refine ⟨?_, ?_, ?_⟩
    · intro l j r hl hp
      have hsk : noLowerL (skipWs l) := noLowerL_skipWs hl
      simp only [parseVal] at hp
      split at hp
      · simp at hp
      · next rest heq =>
        rw [heq] at hsk
        split at hp
        · next s r' heq2 =>
          simp only [Option.some.injEq, Prod.mk.injEq] at hp
          obtain ⟨hj, hr⟩ := hp
          subst hj; subst hr
          exact ⟨(parseStringAux_noLower _ rest s r' (noLowerL_cons hsk).2 heq2).2,
            trivial⟩
        · simp at hp
      · next rest heq =>
        rw [heq] at hsk
        have hsk2 : noLowerL (skipWs rest) := noLowerL_skipWs (noLowerL_cons hsk).2
        split at hp
        · next r2 heq2 =>
          rw [heq2] at hsk2
          simp only [Option.some.injEq, Prod.mk.injEq] at hp
          obtain ⟨hj, hr⟩ := hp
          subst hj; subst hr
          exact ⟨(noLowerL_cons hsk2).2, fun kv hkv => absurd hkv (List.not_mem_nil kv)⟩
        · split at hp
          · next fs r' heq3 =>
            simp only [Option.some.injEq, Prod.mk.injEq] at hp
            obtain ⟨hj, hr⟩ := hp
            subst hj; subst hr
            obtain ⟨h1, h2⟩ := ih2 _ fs r' hsk2 heq3
            exact ⟨h1, h2⟩
          · simp at hp
      · next rest heq =>
        rw [heq] at hsk
        have hsk2 : noLowerL (skipWs rest) := noLowerL_skipWs (noLowerL_cons hsk).2
        split at hp
        · next r2 heq2 =>
          rw [heq2] at hsk2
          simp only [Option.some.injEq, Prod.mk.injEq] at hp
          obtain ⟨hj, hr⟩ := hp
          subst hj; subst hr
          exact ⟨(noLowerL_cons hsk2).2, trivial⟩
        · split at hp
          · next xs r' heq3 =>
            simp only [Option.some.injEq, Prod.mk.injEq] at hp
            obtain ⟨hj, hr⟩ := hp
            subst hj; subst hr
            exact ⟨ih3 _ xs r' hsk2 heq3, trivial⟩
          · simp at hp
      · next rest heq =>
        rw [heq] at hsk
        split at hp
        · next r' heq2 =>
          simp only [Option.some.injEq, Prod.mk.injEq] at hp
          obtain ⟨hj, hr⟩ := hp
          subst hj; subst hr
          exact ⟨expectLit_noLower (noLowerL_cons hsk).2 heq2, trivial⟩
        · simp at hp
      · next rest heq =>
        rw [heq] at hsk
        split at hp
        · next r' heq2 =>
          simp only [Option.some.injEq, Prod.mk.injEq] at hp
          obtain ⟨hj, hr⟩ := hp
          subst hj; subst hr
          exact ⟨expectLit_noLower (noLowerL_cons hsk).2 heq2, trivial⟩
        · simp at hp
      · next rest heq =>
        rw [heq] at hsk
        split at hp
        · next r' heq2 =>
          simp only [Option.some.injEq, Prod.mk.injEq] at hp
          obtain ⟨hj, hr⟩ := hp
          subst hj; subst hr
          exact ⟨expectLit_noLower (noLowerL_cons hsk).2 heq2, trivial⟩
        · simp at hp
      · exact parseNum_noLower hsk hp
    · intro l fs r hl hp
      have hsk : noLowerL (skipWs l) := noLowerL_skipWs hl
      simp only [parseObjFields] at hp
      split at hp
      · next rest heq =>
        rw [heq] at hsk
        split at hp
        · next k r1 heq2 =>
          obtain ⟨hk, hr1⟩ :=
            parseStringAux_noLower _ rest k r1 (noLowerL_cons hsk).2 heq2
          have hsk1 : noLowerL (skipWs r1) := noLowerL_skipWs hr1
          split at hp
          · next r2 heq3 =>
            rw [heq3] at hsk1
            have hr2 : noLowerL r2 := (noLowerL_cons hsk1).2
            split at hp
            · next v r3 heq4 =>
              obtain ⟨hr3, _⟩ := ih1 r2 v r3 hr2 heq4
              have hsk3 : noLowerL (skipWs r3) := noLowerL_skipWs hr3
              split at hp
              · next r4 heq5 =>
                rw [heq5] at hsk3
                split at hp
                · next fs2 r5 heq6 =>
                  obtain ⟨hr5, hkeys⟩ :=
                    ih2 r4 fs2 r5 (noLowerL_cons hsk3).2 heq6
                  simp only [Option.some.injEq, Prod.mk.injEq] at hp
                  obtain ⟨hfs, hr⟩ := hp
                  subst hfs; subst hr
                  refine ⟨hr5, fun kv hkv => ?_⟩
                  rcases List.mem_cons.mp hkv with h | h
                  · subst h; exact hk
                  · exact hkeys kv h
                · simp at hp
              · next r4 heq5 =>
                rw [heq5] at hsk3
                simp only [Option.some.injEq, Prod.mk.injEq] at hp
                obtain ⟨hfs, hr⟩ := hp
                subst hfs; subst hr
                refine ⟨(noLowerL_cons hsk3).2, fun kv hkv => ?_⟩
                rcases List.mem_cons.mp hkv with h | h
                · subst h; exact hk
                · exact absurd h (List.not_mem_nil kv)
              · simp at hp
            · simp at hp
          · simp at hp
        · simp at hp
      · simp at hp
    · intro l xs r hl hp
      simp only [parseArrElems] at hp
      split at hp
      · next v r1 heq =>
        obtain ⟨hr1, _⟩ := ih1 l v r1 hl heq
        have hsk1 : noLowerL (skipWs r1) := noLowerL_skipWs hr1
        split at hp
        · next r2 heq2 =>
          rw [heq2] at hsk1
          split at hp
          · next xs2 r3 heq3 =>
            simp only [Option.some.injEq, Prod.mk.injEq] at hp
            obtain ⟨hxs, hr⟩ := hp
            subst hxs; subst hr
            exact ih3 r2 xs2 r3 (noLowerL_cons hsk1).2 heq3
          · simp at hp
        · next r2 heq2 =>
          rw [heq2] at hsk1
          simp only [Option.some.injEq, Prod.mk.injEq] at hp
          obtain ⟨hxs, hr⟩ := hp
          subst hxs; subst hr
          exact (noLowerL_cons hsk1).2
        · simp at hp
      · simp at hp

/-- Any document parsed from an uppercased payload has no top-level key
containing an ASCII lowercase letter. -/
theorem deserializeJson_strUpper_topKeys {p : String} {j : Json}
    (hp : deserializeJson (strUpper p) = some j) : topKeysOK j := by
  unfold deserializeJson at hp
  split at hp
  · next j' r heq =>
    split at hp
    · simp only [Option.some.injEq] at hp
      subst hp
      exact (parse_noLower _).1 _ _ _ (noLowerL_strUpper p) heq |>.2
    · simp at hp
  · simp at hp

/-- A document whose top-level keys have no lowercase letters does not
contain a key that does. -/
theorem topKeysOK_containsKey_false {j : Json} (hj : topKeysOK j)
    {k : String} {c : Char} (hc : c ∈ k.data) (hlow : isLowerAscii c = true) :
    j.containsKey k = false := by
  cases j with
  | obj fs =>
    simp only [Json.containsKey, List.any_eq_false]
    intro kv hkv
    simp only [beq_iff_eq]
    intro hk
    subst hk
    have := hj kv hkv c hc
    rw [hlow] at this
    exact absurd this (by simp)
  | null => rfl
  | bool b => rfl
  | num n => rfl
  | str s => rfl
  | arr xs => rfl


/-! ### Uppercasing preserves parse failure

`String.toUpperCase` only moves ASCII letters, and letters occur in a
well-formed document only inside string literals (the keyword literals
must be exactly lowercase `true`/`false`/`null`, which survive in no
uppercased input).  Hence if the uppercased payload parses, the
original did too — equivalently, a payload that fails to parse still
fails after uppercasing. -/

theorem char_toNat_eq {c d : Char} (h : c.toNat = d.toNat) : c = d :=
  Char.ext (UInt32.ext h)

theorem charUpper_toNat (c : Char) :
    (charUpper c).toNat =
      if 97 ≤ c.toNat ∧ c.toNat ≤ 122 then c.toNat - 32 else c.toNat := by
  unfold charUpper
  split
  · next h => exact toNat_ofNatAux _ _
  · next h => rfl

theorem charUpper_eq_iff (d : Char)
    (hd : d.toNat < 65 ∨ (90 < d.toNat ∧ d.toNat < 97) ∨ 122 < d.toNat)
    (c : Char) : charUpper c = d ↔ c = d := by
  constructor
  · intro h
    apply char_toNat_eq
    have ht := congrArg Char.toNat h
    rw [charUpper_toNat] at ht
    by_cases hc : 97 ≤ c.toNat ∧ c.toNat ≤ 122
    · rw [if_pos hc] at ht
      rcases hd with h1 | h2 | h3 <;> omega
    · rw [if_neg hc] at ht; exact ht
  · intro h
    subst h
    apply char_toNat_eq
    rw [charUpper_toNat]
    have hno : ¬(97 ≤ c.toNat ∧ c.toNat ≤ 122) := by
      rcases hd with h1 | h2 | h3 <;> omega
    rw [if_neg hno]

theorem charUpper_ne_lower (d : Char) (hd : 97 ≤ d.toNat ∧ d.toNat ≤ 122)
    (c : Char) : charUpper c ≠ d := by
  intro h
  have hl := charUpper_not_lower c
  rw [h] at hl
  unfold isLowerAscii at hl
  rw [Bool.and_eq_false_iff] at hl
  rcases hl with h1 | h1 <;>
    · rw [decide_eq_false_iff_not] at h1
      omega

theorem isWs_eq_false_of_toNat (x : Char) (h32 : x.toNat ≠ 32)
    (h10 : x.toNat ≠ 10) (h9 : x.toNat ≠ 9) (h13 : x.toNat ≠ 13) :
    isWs x = false := by
  unfold isWs
  rw [beq_eq_false_iff_ne.mpr (fun h => h32 (by rw [h]; rfl)),
      beq_eq_false_iff_ne.mpr (fun h => h10 (by rw [h]; rfl)),
      beq_eq_false_iff_ne.mpr (fun h => h9 (by rw [h]; rfl)),
      beq_eq_false_iff_ne.mpr (fun h => h13 (by rw [h]; rfl))]
  rfl

theorem charUpper_eq_self (c : Char) (hc : ¬(97 ≤ c.toNat ∧ c.toNat ≤ 122)) :
    charUpper c = c := by
  apply char_toNat_eq
  rw [charUpper_toNat, if_neg hc]

theorem isWs_charUpper (c : Char) : isWs (charUpper c) = isWs c := by
  by_cases hc : 97 ≤ c.toNat ∧ c.toNat ≤ 122
  · have hu := charUpper_toNat c
    rw [if_pos hc] at hu
    rw [isWs_eq_false_of_toNat (charUpper c) (by omega) (by omega) (by omega)
        (by omega),
      isWs_eq_false_of_toNat c (by omega) (by omega) (by omega) (by omega)]
  · rw [charUpper_eq_self c hc]

theorem char_le_iff_toNat (c d : Char) : c ≤ d ↔ c.toNat ≤ d.toNat := by
  rw [Char.le_def]
  exact Iff.rfl

theorem isDigit_toNat (x : Char) :
    x.isDigit = (decide (48 ≤ x.toNat) && decide (x.toNat ≤ 57)) := by
  unfold Char.isDigit
  congr 1

theorem isDigit_charUpper (c : Char) : (charUpper c).isDigit = c.isDigit := by
  by_cases hc : 97 ≤ c.toNat ∧ c.toNat ≤ 122
  · have hu := charUpper_toNat c
    rw [if_pos hc] at hu
    rw [isDigit_toNat, isDigit_toNat, hu]
    have e1 : decide (48 ≤ c.toNat - 32 ∧ c.toNat - 32 ≤ 57) = false := by
      rw [decide_eq_false_iff_not]; omega
    have e2 : ¬(c.toNat ≤ 57) := by omega
    rw [decide_eq_false_iff_not.mpr e2]
    have e3 : ¬(c.toNat - 32 ≤ 57) := by omega
    rw [decide_eq_false_iff_not.mpr e3]
    simp
  · rw [charUpper_eq_self c hc]

theorem skipWs_map_charUpper (l : List Char) :
    skipWs (l.map charUpper) = (skipWs l).map charUpper := by
  unfold skipWs
  rw [List.dropWhile_map, show (isWs ∘ charUpper) = isWs from funext isWs_charUpper]

theorem takeWhile_isDigit_map_charUpper (l : List Char) :
    (l.map charUpper).takeWhile Char.isDigit =
      (l.takeWhile Char.isDigit).map charUpper := by
  rw [List.takeWhile_map,
    show (Char.isDigit ∘ charUpper) = Char.isDigit from funext isDigit_charUpper]

theorem dropWhile_isDigit_map_charUpper (l : List Char) :
    (l.map charUpper).dropWhile Char.isDigit =
      (l.dropWhile Char.isDigit).map charUpper := by
  rw [List.dropWhile_map,
    show (Char.isDigit ∘ charUpper) = Char.isDigit from funext isDigit_charUpper]

theorem isEmpty_map {α β : Type} (f : α → β) (l : List α) :
    (l.map f).isEmpty = l.isEmpty := by
  cases l <;> rfl

theorem parseNum_not_dash (c : Char) (t : List Char) (h : c ≠ '-') :
    parseNum (c :: t) =
      (let ds := (c :: t).takeWhile Char.isDigit
       if ds.isEmpty then none
       else some (.num (ds.foldl (fun a x => a * 10 + (x.toNat - 48)) 0 : Int),
         (c :: t).dropWhile Char.isDigit)) := by
  simp only [parseNum]
  split
  · next rest heq =>
    rw [List.cons.injEq] at heq
    exact absurd heq.1 h
  · rfl

theorem parseNum_map_charUpper (m : List Char) (j : Json) (r : List Char)
    (hp : parseNum (m.map charUpper) = some (j, r)) :
    ∃ j' r', parseNum m = some (j', r') ∧ r = r'.map charUpper := by
  cases m with
  | nil => simp [parseNum] at hp
  | cons c0 t0 =>
    rw [List.map_cons] at hp
    by_cases hc : c0 = '-'
    · subst hc
      rw [show charUpper '-' = '-' from rfl] at hp
      simp only [parseNum] at hp
      rw [takeWhile_isDigit_map_charUpper, dropWhile_isDigit_map_charUpper,
        isEmpty_map] at hp
      by_cases hds : (t0.takeWhile Char.isDigit).isEmpty = true
      · rw [if_pos hds] at hp; exact absurd hp (by simp)
      · rw [if_neg hds] at hp
        simp only [Option.some.injEq, Prod.mk.injEq] at hp
        rcases hpn : parseNum ('-' :: t0) with _ | ⟨j1, r1⟩
        · have h2 := hpn
          simp only [parseNum] at h2
          rw [if_neg hds] at h2
          exact absurd h2 (by simp)
        · have h2 := hpn
          simp only [parseNum] at h2
          rw [if_neg hds] at h2
          simp only [Option.some.injEq, Prod.mk.injEq] at h2
          exact ⟨j1, r1, rfl, by rw [← h2.2]; exact hp.2.symm⟩
    · have hcu : charUpper c0 ≠ '-' := fun h =>
        hc ((charUpper_eq_iff '-' (by decide) c0).mp h)
      rw [parseNum_not_dash _ _ hcu] at hp
      simp only [] at hp
      rw [show (charUpper c0 :: t0.map charUpper) =
          (c0 :: t0).map charUpper from rfl] at hp
      rw [takeWhile_isDigit_map_charUpper, dropWhile_isDigit_map_charUpper,
        isEmpty_map] at hp
      by_cases hds : ((c0 :: t0).takeWhile Char.isDigit).isEmpty = true
      · rw [if_pos hds] at hp; exact absurd hp (by simp)
      · rw [if_neg hds] at hp
        simp only [Option.some.injEq, Prod.mk.injEq] at hp
        rcases hpn : parseNum (c0 :: t0) with _ | ⟨j1, r1⟩
        · have h2 := hpn
          rw [parseNum_not_dash _ _ hc] at h2
          simp only [] at h2
          rw [if_neg hds] at h2
          exact absurd h2 (by simp)
        · have h2 := hpn
          rw [parseNum_not_dash _ _ hc] at h2
          simp only [] at h2
          rw [if_neg hds] at h2
          simp only [Option.some.injEq, Prod.mk.injEq] at h2
          exact ⟨j1, r1, rfl, by rw [← h2.2]; exact hp.2.symm⟩

theorem parseStringAux_map_charUpper :
    ∀ fuel l s r, parseStringAux fuel (l.map charUpper) = some (s, r) →
      ∃ s' r', parseStringAux fuel l = some (s', r') ∧ r = r'.map charUpper := by
  intro fuel
  induction fuel with
  | zero => intro l s r hp; simp [parseStringAux] at hp
  | succ fuel ih =>
    intro l s r hp
    cases l with
    | nil => simp [parseStringAux] at hp
    | cons c rest =>
      rw [List.map_cons] at hp
      by_cases hq : c = '"'
      · subst hq
        rw [show charUpper '"' = '"' from rfl] at hp
        simp only [parseStringAux, beq_self_eq_true, if_pos] at hp
        simp only [Option.some.injEq, Prod.mk.injEq] at hp
        exact ⟨[], rest, by simp [parseStringAux], hp.2.symm⟩
      · have hqu : (charUpper c == '"') = false :=
          beq_eq_false_iff_ne.mpr
            (fun h => hq ((charUpper_eq_iff '"' (by decide) c).mp h))
        have hq' : (c == '"') = false := beq_eq_false_iff_ne.mpr hq
        by_cases hb : c = '\\'
        · subst hb
          rw [show charUpper '\\' = '\\' from rfl] at hp
          rw [show ∀ t, parseStringAux (fuel + 1) ('\\' :: t) =
              (match t with
               | [] => none
               | d :: rest2 =>
                 match parseStringAux fuel rest2 with
                 | some (s, r) => some (d :: s, r)
                 | none => none) from fun t => by
            simp [parseStringAux]] at hp
          cases rest with
          | nil => simp at hp
          | cons d rest2 =>
            simp only [List.map_cons] at hp
            rcases hq2 : parseStringAux fuel (rest2.map charUpper)
              with _ | ⟨s2, r2⟩ <;> rw [hq2] at hp
            · simp at hp
            · simp only [Option.some.injEq, Prod.mk.injEq] at hp
              obtain ⟨s3, r3, hps, hr⟩ := ih rest2 s2 r2 hq2
              refine ⟨d :: s3, r3, ?_, by rw [← hp.2, hr]⟩
              rw [show parseStringAux (fuel + 1) ('\\' :: d :: rest2) =
                  (match parseStringAux fuel rest2 with
                   | some (s, r) => some (d :: s, r)
                   | none => none) from by
                simp [parseStringAux]]
              rw [hps]
        · have hbu : (charUpper c == '\\') = false :=
            beq_eq_false_iff_ne.mpr
              (fun h => hb ((charUpper_eq_iff '\\' (by decide) c).mp h))
          have hb' : (c == '\\') = false := beq_eq_false_iff_ne.mpr hb
          rw [show parseStringAux (fuel + 1) (charUpper c :: rest.map charUpper) =
              (match parseStringAux fuel (rest.map charUpper) with
               | some (s, r) => some (charUpper c :: s, r)
               | none => none) from by
            simp [parseStringAux, hqu, hbu]] at hp
          rcases hq2 : parseStringAux fuel (rest.map charUpper)
            with _ | ⟨s2, r2⟩ <;> rw [hq2] at hp
          · simp at hp
          · simp only [Option.some.injEq, Prod.mk.injEq] at hp
            obtain ⟨s3, r3, hps, hr⟩ := ih rest s2 r2 hq2
            refine ⟨c :: s3, r3, ?_, by rw [← hp.2, hr]⟩
            rw [show parseStringAux (fuel + 1) (c :: rest) =
                (match parseStringAux fuel rest with
                 | some (s, r) => some (c :: s, r)
                 | none => none) from by
              simp [parseStringAux, hq', hb']]
            rw [hps]

theorem map_charUpper_cons_inv {l : List Char} {d : Char} {rest : List Char}
    (hd : d.toNat < 65 ∨ (90 < d.toNat ∧ d.toNat < 97) ∨ 122 < d.toNat)
    (h : l.map charUpper = d :: rest) :
    ∃ t, l = d :: t ∧ rest = t.map charUpper := by
  cases l with
  | nil => simp at h
  | cons c0 t0 =>
    rw [List.map_cons, List.cons.injEq] at h
    exact ⟨t0, by rw [(charUpper_eq_iff d hd c0).mp h.1], h.2.symm⟩

theorem map_charUpper_ne_cons_lower {l : List Char} {d : Char} {rest : List Char}
    (hd : 97 ≤ d.toNat ∧ d.toNat ≤ 122)
    (h : l.map charUpper = d :: rest) : False := by
  cases l with
  | nil => simp at h
  | cons c0 t0 =>
    rw [List.map_cons, List.cons.injEq] at h
    exact charUpper_ne_lower d hd c0 h.1

/-- If the uppercased input parses, the original input parses too, with
a remainder whose uppercasing is the uppercased run's remainder. -/
theorem parse_map_charUpper :
    ∀ fuel : Nat,
      (∀ l j r, parseVal fuel (l.map charUpper) = some (j, r) →
        ∃ j' r', parseVal fuel l = some (j', r') ∧ r = r'.map charUpper) ∧
      (∀ l fs r, parseObjFields fuel (l.map charUpper) = some (fs, r) →
        ∃ fs' r', parseObjFields fuel l = some (fs', r') ∧ r = r'.map charUpper) ∧
      (∀ l xs r, parseArrElems fuel (l.map charUpper) = some (xs, r) →
        ∃ xs' r', parseArrElems fuel l = some (xs', r') ∧ r = r'.map charUpper) := by
  intro fuel
  induction fuel with
  | zero =>
    refine ⟨?_, ?_, ?_⟩ <;> intro l a r hp <;>
      simp [parseVal, parseObjFields, parseArrElems] at hp
  | succ fuel ih =>
    obtain ⟨ih1, ih2, ih3⟩ := ih
    refine ⟨?_, ?_, ?_⟩
    · intro l j r hp
      simp only [parseVal] at hp
      split at hp
      · simp at hp
      · next rest heq =>
        rw [skipWs_map_charUpper] at heq
        obtain ⟨t0, hsk, hrest⟩ := map_charUpper_cons_inv (by decide) heq
        subst hrest
        split at hp
        · next s0 r0 heq2 =>
          obtain ⟨s3, r3, hps, hr3⟩ :=
            parseStringAux_map_charUpper (fuel + 1) t0 s0 r0 heq2
          simp only [Option.some.injEq, Prod.mk.injEq] at hp
          refine ⟨.str (String.mk s3), r3, ?_, by rw [← hp.2, hr3]⟩
          rw [show parseVal (fuel + 1) l =
              (match parseStringAux (fuel + 1) t0 with
               | some (s, r) => some (.str (String.mk s), r)
               | none => none) from by
            simp only [parseVal]; rw [hsk]; rfl]
          rw [hps]
        · simp at hp
      · next rest heq =>
        rw [skipWs_map_charUpper] at heq
        obtain ⟨t0, hsk, hrest⟩ := map_charUpper_cons_inv (by decide) heq
        subst hrest
        rw [skipWs_map_charUpper] at hp
        have hred : parseVal (fuel + 1) l =
            (match skipWs t0 with
             | '}' :: r2 => some (.obj [], r2)
             | l2 =>
               match parseObjFields fuel l2 with
               | some (fs, r) => some (.obj fs, r)
               | none => none) := by
          simp only [parseVal]; rw [hsk]; rfl
        split at hp
        · next r2 heq2 =>
          obtain ⟨t1, hsk2, hr2⟩ := map_charUpper_cons_inv (by decide) heq2
          subst hr2
          simp only [Option.some.injEq, Prod.mk.injEq] at hp
          refine ⟨.obj [], t1, ?_, by rw [← hp.2]⟩
          rw [hred, hsk2]
          rfl
        · next hne =>
          split at hp
          · next fs0 r0 heq3 =>
            obtain ⟨fs3, r3, hpf, hr3⟩ := ih2 (skipWs t0) fs0 r0 heq3
            simp only [Option.some.injEq, Prod.mk.injEq] at hp
            refine ⟨.obj fs3, r3, ?_, by rw [← hp.2, hr3]⟩
            rw [hred]
            split
            · next r2 heq4 =>
              exact absurd (by rw [heq4]; rfl : (skipWs t0).map charUpper =
                '}' :: r2.map charUpper) (fun h => hne _ h)
            · rw [hpf]
          · simp at hp
      · next rest heq =>
        rw [skipWs_map_charUpper] at heq
        obtain ⟨t0, hsk, hrest⟩ := map_charUpper_cons_inv (by decide) heq
        subst hrest
        rw [skipWs_map_charUpper] at hp
        have hred : parseVal (fuel + 1) l =
            (match skipWs t0 with
             | ']' :: r2 => some (.arr [], r2)
             | l2 =>
               match parseArrElems fuel l2 with
               | some (xs, r) => some (.arr xs, r)
               | none => none) := by
          simp only [parseVal]; rw [hsk]; rfl
        split at hp
        · next r2 heq2 =>
          obtain ⟨t1, hsk2, hr2⟩ := map_charUpper_cons_inv (by decide) heq2
          subst hr2
          simp only [Option.some.injEq, Prod.mk.injEq] at hp
          refine ⟨.arr [], t1, ?_, by rw [← hp.2]⟩
          rw [hred, hsk2]
          rfl
        · next hne =>
          split at hp
          · next xs0 r0 heq3 =>
            obtain ⟨xs3, r3, hpf, hr3⟩ := ih3 (skipWs t0) xs0 r0 heq3
            simp only [Option.some.injEq, Prod.mk.injEq] at hp
            refine ⟨.arr xs3, r3, ?_, by rw [← hp.2, hr3]⟩
            rw [hred]
            split
            · next r2 heq4 =>
              exact absurd (by rw [heq4]; rfl : (skipWs t0).map charUpper =
                ']' :: r2.map charUpper) (fun h => hne _ h)
            · rw [hpf]
          · simp at hp
      · next rest heq =>
        rw [skipWs_map_charUpper] at heq
        exact (map_charUpper_ne_cons_lower (by decide) heq).elim
      · next rest heq =>
        rw [skipWs_map_charUpper] at heq
        exact (map_charUpper_ne_cons_lower (by decide) heq).elim
      · next rest heq =>
        rw [skipWs_map_charUpper] at heq
        exact (map_charUpper_ne_cons_lower (by decide) heq).elim
      · next hnil hqq hob har htt hff hnn =>
        rw [skipWs_map_charUpper] at hp
        obtain ⟨j3, r3, hpn, hr3⟩ := parseNum_map_charUpper (skipWs l) j r hp
        refine ⟨j3, r3, ?_, hr3⟩
        rcases hsk : skipWs l with _ | ⟨c0, t0⟩
        · rw [hsk] at hpn; simp [parseNum] at hpn
        · rw [hsk] at hpn
          simp only [parseVal]
          rw [hsk]
          split
          · next heq4 => simp at heq4
          · next rest heq4 =>
            rw [List.cons.injEq] at heq4
            exact absurd
              (by rw [skipWs_map_charUpper, hsk, heq4.1, heq4.2]; rfl :
                skipWs (l.map charUpper) = '"' :: rest.map charUpper)
              (fun h => hqq _ h)
          · next rest heq4 =>
            rw [List.cons.injEq] at heq4
            exact absurd
              (by rw [skipWs_map_charUpper, hsk, heq4.1, heq4.2]; rfl :
                skipWs (l.map charUpper) = '{' :: rest.map charUpper)
              (fun h => hob _ h)
          · next rest heq4 =>
            rw [List.cons.injEq] at heq4
            exact absurd
              (by rw [skipWs_map_charUpper, hsk, heq4.1, heq4.2]; rfl :
                skipWs (l.map charUpper) = '[' :: rest.map charUpper)
              (fun h => har _ h)
          · next rest heq4 =>
            rw [List.cons.injEq] at heq4
            obtain ⟨h1, h2⟩ := heq4
            subst h1; subst h2
            simp [parseNum] at hpn
          · next rest heq4 =>
            rw [List.cons.injEq] at heq4
            obtain ⟨h1, h2⟩ := heq4
            subst h1; subst h2
            simp [parseNum] at hpn
          · next rest heq4 =>
            rw [List.cons.injEq] at heq4
            obtain ⟨h1, h2⟩ := heq4
            subst h1; subst h2
            simp [parseNum] at hpn
          · exact hpn
    · intro l fs r hp
      simp only [parseObjFields] at hp
      split at hp
      · next rest heq =>
        rw [skipWs_map_charUpper] at heq
        obtain ⟨t0, hsk, hrest⟩ := map_charUpper_cons_inv (by decide) heq
        subst hrest
        split at hp
        · next k0 r10 heq2 =>
          obtain ⟨k3, r13, hps, hr13⟩ :=
            parseStringAux_map_charUpper (fuel + 1) t0 k0 r10 heq2
          subst hr13
          rw [skipWs_map_charUpper] at hp
          split at hp
          · next r20 heq3 =>
            obtain ⟨t2, hsk2, hr2⟩ := map_charUpper_cons_inv (by decide) heq3
            subst hr2
            split at hp
            · next v0 r30 heq4 =>
              obtain ⟨v3, r33, hpv, hr33⟩ := ih1 t2 v0 r30 heq4
              subst hr33
              rw [skipWs_map_charUpper] at hp
              split at hp
              · next r40 heq5 =>
                obtain ⟨t4, hsk4, hr4⟩ := map_charUpper_cons_inv (by decide) heq5
                subst hr4
                split at hp
                · next fs0 r50 heq6 =>
                  obtain ⟨fs3, r53, hpf, hr53⟩ := ih2 t4 fs0 r50 heq6
                  simp only [Option.some.injEq, Prod.mk.injEq] at hp
                  refine ⟨(String.mk k3, v3) :: fs3, r53, ?_, by rw [← hp.2, hr53]⟩
                  rw [show parseObjFields (fuel + 1) l =
                      (match parseStringAux (fuel + 1) t0 with
                       | some (k, r1) =>
                         match skipWs r1 with
                         | ':' :: r2 =>
                           match parseVal fuel r2 with
                           | some (v, r3) =>
                             match skipWs r3 with
                             | ',' :: r4 =>
                               (match parseObjFields fuel r4 with
                                | some (fs, r5) =>
                                  some ((String.mk k, v) :: fs, r5)
                                | none => none)
                             | '}' :: r4 => some ([(String.mk k, v)], r4)
                             | _ => none
                           | none => none
                         | _ => none
                       | none => none) from by
                    simp only [parseObjFields]; rw [hsk]; rfl]
                  rw [hps]
                  simp only []
                  rw [hsk2]
                  simp only []
                  rw [hpv]
                  simp only []
                  rw [hsk4]
                  simp only []
                  rw [hpf]
                · simp at hp
              · next r40 heq5 =>
                obtain ⟨t4, hsk4, hr4⟩ := map_charUpper_cons_inv (by decide) heq5
                subst hr4
                simp only [Option.some.injEq, Prod.mk.injEq] at hp
                refine ⟨[(String.mk k3, v3)], t4, ?_, by rw [← hp.2]⟩
                rw [show parseObjFields (fuel + 1) l =
                    (match parseStringAux (fuel + 1) t0 with
                     | some (k, r1) =>
                       match skipWs r1 with
                       | ':' :: r2 =>
                         match parseVal fuel r2 with
                         | some (v, r3) =>
                           match skipWs r3 with
                           | ',' :: r4 =>
                             (match parseObjFields fuel r4 with
                              | some (fs, r5) =>
                                some ((String.mk k, v) :: fs, r5)
                              | none => none)
                           | '}' :: r4 => some ([(String.mk k, v)], r4)
                           | _ => none
                         | none => none
                       | _ => none
                     | none => none) from by
                  simp only [parseObjFields]; rw [hsk]; rfl]
                rw [hps]
                simp only []
                rw [hsk2]
                simp only []
                rw [hpv]
                simp only []
                rw [hsk4]
                rfl
              · simp at hp
            · simp at hp
          · simp at hp
        · simp at hp
      · simp at hp
    · intro l xs r hp
      simp only [parseArrElems] at hp
      split at hp
      · next v0 r10 heq =>
        obtain ⟨v3, r13, hpv, hr13⟩ := ih1 l v0 r10 heq
        subst hr13
        rw [skipWs_map_charUpper] at hp
        split at hp
        · next r20 heq2 =>
          obtain ⟨t2, hsk2, hr2⟩ := map_charUpper_cons_inv (by decide) heq2
          subst hr2
          split at hp
          · next xs0 r30 heq3 =>
            obtain ⟨xs3, r33, hpa, hr33⟩ := ih3 t2 xs0 r30 heq3
            simp only [Option.some.injEq, Prod.mk.injEq] at hp
            refine ⟨v3 :: xs3, r33, ?_, by rw [← hp.2, hr33]⟩
            rw [show parseArrElems (fuel + 1) l =
                (match parseVal fuel l with
                 | some (v, r1) =>
                   match skipWs r1 with
                   | ',' :: r2 =>
                     (match parseArrElems fuel r2 with
                      | some (xs, r3) => some (v :: xs, r3)
                      | none => none)
                   | ']' :: r2 => some ([v], r2)
                   | _ => none
                 | none => none) from by
              simp only [parseArrElems]]
            rw [hpv]
            simp only []
            rw [hsk2]
            simp only []
            rw [hpa]
          · simp at hp
        · next r20 heq2 =>
          obtain ⟨t2, hsk2, hr2⟩ := map_charUpper_cons_inv (by decide) heq2
          subst hr2
          simp only [Option.some.injEq, Prod.mk.injEq] at hp
          refine ⟨[v3], t2, ?_, by rw [← hp.2]⟩
          rw [show parseArrElems (fuel + 1) l =
              (match parseVal fuel l with
               | some (v, r1) =>
                 match skipWs r1 with
                 | ',' :: r2 =>
                   (match parseArrElems fuel r2 with
                    | some (xs, r3) => some (v :: xs, r3)
                    | none => none)
                 | ']' :: r2 => some ([v], r2)
                 | _ => none
               | none => none) from by
            simp only [parseArrElems]]
          rw [hpv]
          simp only []
          rw [hsk2]
          rfl
        · simp at hp
      · simp at hp

/-- A payload that fails to parse still fails after uppercasing. -/
theorem deserializeJson_strUpper_none (p : String)
    (hbad : deserializeJson p = none) :
    deserializeJson (strUpper p) = none := by
  rcases hup : deserializeJson (strUpper p) with _ | j
  · rfl
  · exfalso
    unfold deserializeJson at hup
    split at hup
    · next j0 r0 heq =>
      rw [show (strUpper p).data = p.data.map charUpper from rfl,
        List.length_map] at heq
      obtain ⟨j3, r3, hpv, hr3⟩ :=
        (parse_map_charUpper (p.data.length + 1)).1 p.data j0 r0 heq
      split at hup
      · next hempty =>
        subst hr3
        rw [skipWs_map_charUpper] at hempty
        have hr3nil : skipWs r3 = [] := by
          rcases hr : skipWs r3 with _ | ⟨c, t⟩
          · rfl
          · rw [hr] at hempty; simp at hempty
        unfold deserializeJson at hbad
        rw [hpv] at hbad
        rw [show (match some (j3, r3) with
            | some (j, r) => if (skipWs r).isEmpty = true then some j else none
            | none => none) =
            (if (skipWs r3).isEmpty = true then some j3 else none) from rfl,
          hr3nil] at hbad
        exact absurd hbad (by simp)
      · simp at hup
    · simp at hup

theorem deserializeJson_noLower_topKeys {s : String} {j : Json}
    (hs : noLowerL s.data) (hp : deserializeJson s = some j) : topKeysOK j := by
  unfold deserializeJson at hp
  split at hp
  · next j' r heq =>
    split at hp
    · simp only [Option.some.injEq] at hp
      subst hp
      exact ((parse_noLower _).1 _ _ _ hs heq).2
    · simp at hp
  · simp at hp

theorem strUpper_append (a b : String) :
    strUpper (a ++ b) = strUpper a ++ strUpper b := by
  unfold strUpper
  rw [String.data_append, List.map_append]
  rfl

theorem setConfig_data (p : String) :
    (strUpper ("SET_CONFIG:" ++ p)).data =
      "SET_CONFIG:".data ++ (strUpper p).data := by
  rw [strUpper_append, show strUpper "SET_CONFIG:" = "SET_CONFIG:" from rfl,
    String.data_append]

/-- A `SET_CONFIG:`-prefixed line always reaches the upload branch of
`processSerialCommand`, with the uppercased payload. -/
theorem processSerial_setConfig (p : String) (st : DeviceState) :
    processSerialCommand ("SET_CONFIG:" ++ p) st =
      handleConfigUpload (strUpper p) st := by
  have hdata := setConfig_data p
  have hlen : (strUpper ("SET_CONFIG:" ++ p)).data.length =
      11 + (strUpper p).data.length := by
    rw [hdata, List.length_append, show ("SET_CONFIG:".data.length) = 11 from rfl]
  have h1 : ¬(strUpper ("SET_CONFIG:" ++ p) = "STATUS") := by
    intro h
    have h' := congrArg (fun s => s.data.length) h
    simp only at h'
    rw [hlen, show (("STATUS" : String).data.length) = 6 from rfl] at h'
    omega
  have h2 : ¬(strUpper ("SET_CONFIG:" ++ p) = "CONFIG") := by
    intro h
    have h' := congrArg (fun s => s.data.length) h
    simp only at h'
    rw [hlen, show (("CONFIG" : String).data.length) = 6 from rfl] at h'
    omega
  have h3 : strStarts (strUpper ("SET_CONFIG:" ++ p)) "SET_CONFIG:" = true := by
    unfold strStarts
    rw [hdata, List.take_left]
    exact beq_self_eq_true _
  have h4 : sDropL (strUpper ("SET_CONFIG:" ++ p)) 11 = strUpper p := by
    unfold sDropL
    rw [hdata, show (11 : Nat) = ("SET_CONFIG:".data.length) from rfl,
      List.drop_left]
  simp only [processSerialCommand]
  rw [if_neg h1, if_neg h2, if_pos h3, h4]

/-- C1: a serial `SET_CONFIG` request whose payload fails to parse as
JSON is answered with a `RESPONSE` of type `config_upload` and
`success:false`, and the device state — all button slots, the network
config and the device config — is returned exactly as it was (the
upload is atomic replace-or-reject).  The firmware parses the
uppercased line; by `deserializeJson_strUpper_none` a payload that
fails to parse still fails after uppercasing. -/
theorem set_config_invalid_json_rejected_atomically
    (p : String) (st : DeviceState)
    (hbad : deserializeJson p = none) :
    processSerialCommand ("SET_CONFIG:" ++ p) st =
      (st, [.serialLine "Failed to parse configuration JSON",
            .response "config_upload" false "Invalid JSON"]) := by
  rw [processSerial_setConfig]
  unfold handleConfigUpload
  rw [deserializeJson_strUpper_none p hbad]

/-- C1 witness: the spec's scenario payload `\x7bnot valid json\x7d`. -/
theorem set_config_invalid_json_rejected_witness :
    deserializeJson "\x7bnot valid json\x7d" = none ∧
    processSerialCommand ("SET_CONFIG:" ++ "\x7bnot valid json\x7d") defaultState =
      (defaultState,
       [.serialLine "Failed to parse configuration JSON",
        .response "config_upload" false "Invalid JSON"]) :=
  ⟨rfl, set_config_invalid_json_rejected_atomically _ _ rfl⟩

/-- C2: for any serial `SET_CONFIG` payload, the document the firmware
parses comes from the uppercased line, so it contains none of the
lowercase keys `device`, `network`, `buttons`; consequently no button,
network or device field changes, yet `saveConfiguration` still runs
(the `save` effect, with only the cached hash recomputed) and the
device answers `config_upload` with `success:true`. -/
theorem set_config_uppercased_payload_keys_ignored
    (p : String) (st : DeviceState) (doc : Json)
    (hdoc : deserializeJson (strUpper p) = some doc) :
    doc.containsKey "device" = false ∧
    doc.containsKey "network" = false ∧
    doc.containsKey "buttons" = false ∧
    processSerialCommand ("SET_CONFIG:" ++ p) st =
      ({ st with lastConfigHash := generateConfigHash st },
       [.save, .serialLine "Configuration saved to flash",
        .serialLine "Configuration updated successfully",
        .response "config_upload" true "Configuration updated successfully"]) := by
  have hkeys := deserializeJson_strUpper_topKeys hdoc
  have hdev := topKeysOK_containsKey_false hkeys
    (k := "device") (c := 'd') (by decide) (by decide)
  have hnet := topKeysOK_containsKey_false hkeys
    (k := "network") (c := 'n') (by decide) (by decide)
  have hbtn := topKeysOK_containsKey_false hkeys
    (k := "buttons") (c := 'b') (by decide) (by decide)
  refine ⟨hdev, hnet, hbtn, ?_⟩
  rw [processSerial_setConfig]
  unfold handleConfigUpload
  rw [hdoc]
  simp [applyDeviceSection, applyNetworkSection, applyButtonsSection,
    saveConfiguration, hdev, hnet, hbtn]

/-- C2 witness: the documented lowercase `device` key, uppercased into
`DEVICE`, is ignored while the upload still saves and succeeds. -/
theorem set_config_uppercased_payload_witness :
    deserializeJson (strUpper "\x7b\"device\":\x7b\"name\":\"studio\"\x7d\x7d") =
      some (Json.obj [("DEVICE", Json.obj [("NAME", Json.str "STUDIO")])]) ∧
    processSerialCommand
        ("SET_CONFIG:" ++ "\x7b\"device\":\x7b\"name\":\"studio\"\x7d\x7d")
        defaultState =
      ({ defaultState with lastConfigHash := generateConfigHash defaultState },
       [.save, .serialLine "Configuration saved to flash",
        .serialLine "Configuration updated successfully",
        .response "config_upload" true "Configuration updated successfully"]) :=
  ⟨rfl,
   (set_config_uppercased_payload_keys_ignored
      "\x7b\"device\":\x7b\"name\":\"studio\"\x7d\x7d" defaultState
      (Json.obj [("DEVICE", Json.obj [("NAME", Json.str "STUDIO")])]) rfl).2.2.2⟩

/-- C3 counterexample: two states differing only in the network
password, the static IP, the device id and button 0's enabled flag
hash identically — none of those fields enters the hash input. -/
theorem config_hash_omits_fields_counterexample :
    generateConfigHash hashStateA = generateConfigHash hashStateB ∧
    hashStateA.networkConfig.password ≠ hashStateB.networkConfig.password ∧
    hashStateA.networkConfig.ip ≠ hashStateB.networkConfig.ip ∧
    hashStateA.deviceConfig.deviceId ≠ hashStateB.deviceConfig.deviceId ∧
    hashStateA.buttonConfigs.map ButtonConfig.enabled ≠
      hashStateB.buttonConfigs.map ButtonConfig.enabled :=
  ⟨rfl, by decide, by decide, by decide, by decide⟩

/-- C3 amended: the config hash is the 31-multiplier byte fold of
deviceName, brightness, ssid and each button's name, action and
actionData only — states agreeing on those fields hash identically. -/
theorem config_hash_depends_only_on_hashed_fields
    (s₁ s₂ : DeviceState)
    (h1 : s₁.deviceConfig.deviceName = s₂.deviceConfig.deviceName)
    (h2 : s₁.deviceConfig.brightness = s₂.deviceConfig.brightness)
    (h3 : s₁.networkConfig.ssid = s₂.networkConfig.ssid)
    (h4 : s₁.buttonConfigs.map (fun b => (b.name, b.action, b.actionData)) =
          s₂.buttonConfigs.map (fun b => (b.name, b.action, b.actionData))) :
    generateConfigHash s₁ = generateConfigHash s₂ := by
  have e : ∀ st : DeviceState,
      st.buttonConfigs.map (fun b => b.name ++ toString b.action ++ b.actionData) =
        (st.buttonConfigs.map (fun b => (b.name, b.action, b.actionData))).map
          (fun t => t.1 ++ toString t.2.1 ++ t.2.2) := by
    intro st
    rw [List.map_map]
    rfl
  have hj : String.join
        (s₁.buttonConfigs.map fun b => b.name ++ toString b.action ++ b.actionData) =
      String.join
        (s₂.buttonConfigs.map fun b => b.name ++ toString b.action ++ b.actionData) := by
    rw [e s₁, e s₂, h4]
  unfold generateConfigHash configString
  rw [h1, h2, h3, hj]

/-- C3 witness: the amended theorem applied to the counterexample
states. -/
theorem config_hash_depends_only_witness :
    hashStateA.buttonConfigs.map (fun b => (b.name, b.action, b.actionData)) =
      hashStateB.buttonConfigs.map (fun b => (b.name, b.action, b.actionData)) ∧
    generateConfigHash hashStateA = generateConfigHash hashStateB :=
  ⟨by decide,
   config_hash_depends_only_on_hashed_fields hashStateA hashStateB rfl rfl rfl
     (by decide)⟩

/-- C4 counterexample: the coordinator sends the `set_config` datagram
even when the device's last known hash equals the snapshot's hash —
`syncConfigToDevice` contains no hash comparison. -/
theorem sync_sends_despite_hash_match_counterexample :
    device0.configHash = configDataHash cfg0 ∧
    syncConfigToDevice reg0 "PATCOM-ABC" cfg0 =
      .ok { dest := "192.168.1.50", port := 12346, deviceId := "PATCOM-ABC",
            config := cfg0 } :=
  ⟨rfl, rfl⟩

/-- C4 amended: `syncConfigToDevice` always sends one `set_config`
datagram to any known device's last-known IP on port 12346, regardless
of any hash; only an unknown device id prevents the send (by
throwing). -/
theorem sync_to_device_always_sends
    (m : Registry) (deviceId : String) (cfg : ConfigData) (d : DiscoveredDevice)
    (hd : registryLookup m deviceId = some d) :
    syncConfigToDevice m deviceId cfg =
      .ok { dest := d.ip, port := 12346, deviceId := d.deviceId, config := cfg } := by
  unfold syncConfigToDevice
  rw [hd]

/-- C4 witness. -/
theorem sync_to_device_always_sends_witness :
    registryLookup reg0 "PATCOM-ABC" = some device0 ∧
    syncConfigToDevice reg0 "PATCOM-ABC" cfg0 =
      .ok { dest := device0.ip, port := 12346, deviceId := device0.deviceId,
            config := cfg0 } :=
  ⟨rfl, sync_to_device_always_sends reg0 "PATCOM-ABC" cfg0 device0 rfl⟩

/-- C5 counterexample: the firmware loop has no hold-time filter — a
press lasting 10 ms (well under the spec's ≈50 ms HOLD_TIME) emits one
press event immediately, not zero. -/
theorem short_press_emits_event_counterexample :
    (310 : Nat) - 300 < 50 ∧
    (runDebounce 0 [(300, true), (310, true)]).2.length = 1 :=
  ⟨by decide, rfl⟩

/-- C5 amended: with no emission in the 200 ms before the first press,
two presses within `BUTTON_DEBOUNCE` of each other emit exactly one
event, at the first press; and a press is emitted on the very poll that
samples it (no hold-time requirement). -/
theorem debounce_two_presses_one_event
    (last0 t1 t2 : Nat)
    (h1 : t1 - last0 > BUTTON_DEBOUNCE)
    (h2 : t2 - t1 ≤ BUTTON_DEBOUNCE) :
    runDebounce last0 [(t1, true), (t2, true)] = (t1, [t1]) ∧
    runDebounce last0 [(t1, true)] = (t1, [t1]) := by
  have hn : ¬(t2 - t1 > BUTTON_DEBOUNCE) := by omega
  constructor <;> simp [runDebounce, debounceStep, h1, hn]

/-- C5 witness. -/
theorem debounce_two_presses_one_event_witness :
    ((300 : Nat) - 0 > BUTTON_DEBOUNCE ∧ (400 : Nat) - 300 ≤ BUTTON_DEBOUNCE) ∧
    runDebounce 0 [(300, true), (400, true)] = (300, [300]) :=
  ⟨⟨by decide, by decide⟩,
   (debounce_two_presses_one_event 0 300 400 (by decide) (by decide)).1⟩

/-- C6 counterexample: `getDiscoveredDevices` performs no TTL
filtering; a record last seen at time 0 is still returned at time
200000 (more than 120 s later). -/
theorem stale_device_still_listed_counterexample :
    (200000 : Int) - baseDevice.lastSeen > 120000 ∧
    getDiscoveredDevices staleRegistry = [baseDevice] :=
  ⟨by decide, rfl⟩

/-- C6 amended: the stale-record sweep happens inside
`discoverDevices`; after a sweep at time `now`, no returned record is
older than the 120 s TTL. -/
theorem discover_sweep_removes_stale_records
    (now : Int) (m : Registry) (d : DiscoveredDevice)
    (hd : d ∈ getDiscoveredDevices (discoverDevices now m)) :
    ¬(d.lastSeen < now - 120000) := by
  unfold getDiscoveredDevices discoverDevices at hd
  rcases List.mem_map.mp hd with ⟨p, hp, rfl⟩
  have h := (List.mem_filter.mp hp).2
  simpa using h

/-- C6 witness. -/
theorem discover_sweep_removes_stale_witness :
    freshDevice ∈ getDiscoveredDevices (discoverDevices 1000 freshRegistry) ∧
    ¬(freshDevice.lastSeen < 1000 - 120000) :=
  ⟨by decide,
   discover_sweep_removes_stale_records 1000 freshRegistry freshDevice (by decide)⟩

theorem handleButtonPress_config_frame (i : Nat) (st : DeviceState) :
    (handleButtonPress i st).1.buttonConfigs = st.buttonConfigs ∧
    (handleButtonPress i st).1.networkConfig = st.networkConfig ∧
    (handleButtonPress i st).1.deviceConfig = st.deviceConfig ∧
    (handleButtonPress i st).1.apiKeys = st.apiKeys := by
  unfold handleButtonPress
  split
  · exact ⟨rfl, rfl, rfl, rfl⟩
  · exact ⟨rfl, rfl, rfl, rfl⟩

theorem handleConfigUpload_noLower_config_frame (s : String) (st : DeviceState)
    (hs : noLowerL s.data) :
    (handleConfigUpload s st).1.buttonConfigs = st.buttonConfigs ∧
    (handleConfigUpload s st).1.networkConfig = st.networkConfig ∧
    (handleConfigUpload s st).1.deviceConfig = st.deviceConfig ∧
    (handleConfigUpload s st).1.apiKeys = st.apiKeys := by
  rcases hd : deserializeJson s with _ | doc
  · unfold handleConfigUpload
    rw [hd]
    exact ⟨rfl, rfl, rfl, rfl⟩
  · have hkeys := deserializeJson_noLower_topKeys hs hd
    have hdev := topKeysOK_containsKey_false hkeys
      (k := "device") (c := 'd') (by decide) (by decide)
    have hnet := topKeysOK_containsKey_false hkeys
      (k := "network") (c := 'n') (by decide) (by decide)
    have hbtn := topKeysOK_containsKey_false hkeys
      (k := "buttons") (c := 'b') (by decide) (by decide)
    unfold handleConfigUpload
    rw [hd]
    simp [applyDeviceSection, applyNetworkSection, applyButtonsSection,
      saveConfiguration, hdev, hnet, hbtn]

/-- C10 amended: the firmware has no `RESET_WIFI` handler (it falls to
the unknown-command error), and in fact no serial request whatsoever
mutates the stored configuration — button slots, network config
(credentials included), device config and the API-key table are all
preserved by every serial command. -/
theorem serial_requests_preserve_stored_config
    (command : String) (st : DeviceState) :
    (processSerialCommand command st).1.buttonConfigs = st.buttonConfigs ∧
    (processSerialCommand command st).1.networkConfig = st.networkConfig ∧
    (processSerialCommand command st).1.deviceConfig = st.deviceConfig ∧
    (processSerialCommand command st).1.apiKeys = st.apiKeys := by
  simp only [processSerialCommand]
  split_ifs
  all_goals
    first
      | exact ⟨rfl, rfl, rfl, rfl⟩
      | exact handleConfigUpload_noLower_config_frame _ st
          (noLowerL_sublist (List.drop_sublist _ _) (noLowerL_strUpper command))
      | exact handleButtonPress_config_frame _ st

/-- C10 counterexample: `RESET_WIFI` is answered as an unknown command
and clears nothing — the stored credentials survive. -/
theorem reset_wifi_unknown_command_counterexample :
    processSerialCommand "RESET_WIFI" credState =
      (credState, [.response "error" false "Unknown command"]) ∧
    credState.networkConfig.ssid = "HOMENET" ∧
    credState.networkConfig.password = "hunter2" :=
  ⟨rfl, rfl, rfl⟩

theorem httpEffects_append (a b : List Effect) :
    httpEffects (a ++ b) = httpEffects a ++ httpEffects b :=
  List.filter_append a b

theorem executeAction_http_empty_url (i : Nat) (st : DeviceState) (b : ButtonConfig)
    (hb : (st.buttonConfigs.get? i).getD ⟨"", 0, "", false⟩ = b)
    (ha : b.action = ACTION_HTTP)
    (hu : (((deserializeJson b.actionData).getD .null).get "url").asStr.getD "" = "") :
    httpEffects (executeAction i st) = [] := by
  simp only [executeAction]
  rw [hb, ha]
  cases hw : st.wifiConnected with
  | false => simp [executeHttpAction, hw, httpEffects]
  | true => simp [executeHttpAction, hw, hu, httpEffects]

theorem executeAction_none_no_net (i : Nat) (st : DeviceState) (b : ButtonConfig)
    (hb : (st.buttonConfigs.get? i).getD ⟨"", 0, "", false⟩ = b)
    (ha : b.action = ACTION_NONE) :
    httpEffects (executeAction i st) = [] := by
  simp only [executeAction]
  rw [hb, ha]
  simp [ACTION_NONE, ACTION_HTTP, ACTION_SERIAL, ACTION_MIDI, ACTION_SCRIPT,
    ACTION_OSC, ACTION_WEBHOOK, httpEffects]

theorem handleButtonPress_http_empty_url_no_net
    (i : Nat) (st : DeviceState) (b : ButtonConfig)
    (hb : st.buttonConfigs.get? i = some b) (hi : i < 8)
    (ha : b.action = ACTION_HTTP)
    (hu : (((deserializeJson b.actionData).getD .null).get "url").asStr.getD "" = "") :
    httpEffects (handleButtonPress i st).2 = [] := by
  have hb' : (st.buttonConfigs.get? i).getD ⟨"", 0, "", false⟩ = b := by
    rw [hb]; rfl
  simp only [handleButtonPress]
  rw [if_neg (by omega : ¬ i ≥ 8), hb']
  simp only []
  rw [httpEffects_append, httpEffects_append]
  cases he : b.enabled with
  | false => simp [he, httpEffects]
  | true =>
    rw [if_pos rfl, executeAction_http_empty_url i st b hb' ha hu]
    simp [httpEffects]

/-- For each button index 0-7, `TEST:<n>` reaches `handleButtonPress`. -/
theorem test_cmd_reduces (i : Nat) (hi : i < 8) (st : DeviceState) :
    processSerialCommand ("TEST:" ++ toString i) st =
      ((handleButtonPress i st).1,
       (handleButtonPress i st).2 ++
         [.response "test" true ("Button " ++ toString (i : Int) ++ " triggered")]) := by
  interval_cases i <;> rfl

/-- C8: a press on a slot with `enabled == false` or action `None` is
skipped and performs no network call; and a slot with action `Http`
whose action data has an empty or missing url, triggered over serial by
`TEST:<n>`, attempts no network request. -/
theorem disabled_or_none_dispatch_skipped
    (st : DeviceState) (i : Nat) (b : ButtonConfig)
    (hb : st.buttonConfigs.get? i = some b) (hi : i < 8) :
    ((b.enabled = false ∨ b.action = ACTION_NONE) →
      dispatchResult st i = .skipped ∧
      httpEffects (handleButtonPress i st).2 = []) ∧
    (b.action = ACTION_HTTP →
      (((deserializeJson b.actionData).getD .null).get "url").asStr.getD "" = "" →
      httpEffects (processSerialCommand ("TEST:" ++ toString i) st).2 = []) := by
  have hb' : (st.buttonConfigs.get? i).getD ⟨"", 0, "", false⟩ = b := by
    rw [hb]; rfl
  constructor
  · intro h
    constructor
    · simp only [dispatchResult]
      rw [hb']
      rcases h with he | ha
      · simp [he]
      · rcases he : b.enabled with _ | _ <;> simp [he, ha]
    · simp only [handleButtonPress]
      rw [if_neg (by omega : ¬ i ≥ 8), hb']
      simp only []
      rw [httpEffects_append, httpEffects_append]
      rcases h with he | ha
      · simp [he, httpEffects]
      · rcases he : b.enabled with _ | _
        · simp [he, httpEffects]
        · rw [if_pos rfl, executeAction_none_no_net i st b hb' ha]
          simp [httpEffects]
  · intro ha hu
    rw [test_cmd_reduces i hi st, httpEffects_append,
      handleButtonPress_http_empty_url_no_net i st b hb hi ha hu]
    rfl

/-- C8 witness: the disabled slot 2 and the url-less HTTP slot 3 of
`testState`. -/
theorem disabled_or_none_dispatch_skipped_witness :
    (testState.buttonConfigs.get? 2 =
        some ⟨"Button 2", ACTION_NONE, "\x7b\x7d", false⟩ ∧
      dispatchResult testState 2 = .skipped ∧
      httpEffects (handleButtonPress 2 testState).2 = []) ∧
    (testState.buttonConfigs.get? 3 =
        some ⟨"Button 3", ACTION_HTTP, "\x7b\x7d", true⟩ ∧
      httpEffects (processSerialCommand ("TEST:" ++ toString 3) testState).2 = []) := by
  refine ⟨⟨rfl, ?_⟩, ⟨rfl, ?_⟩⟩
  · exact (disabled_or_none_dispatch_skipped testState 2 _ rfl (by omega)).1
      (Or.inl rfl)
  · exact (disabled_or_none_dispatch_skipped testState 3 _ rfl (by omega)).2 rfl rfl

/-- C9: the `get_config` reply carries the current config hash and a
redacted snapshot — the network object has exactly the keys `ssid`,
`staticIP`, `ip` (no password), and two states differing only in the
stored password produce identical replies. -/
theorem get_config_response_redacts_password (st : DeviceState) (p : String) :
    (handleConfigRequest getConfigReq
        { st with networkConfig := { st.networkConfig with password := p } }).2 =
      (handleConfigRequest getConfigReq st).2 ∧
    ((buildConfigResponse st).get "network").keys = ["ssid", "staticIP", "ip"] ∧
    "password" ∉ ((buildConfigResponse st).get "network").keys ∧
    (buildConfigResponse st).get "config_hash" =
      .str (generateConfigHash st) := by
  refine ⟨rfl, rfl, ?_, rfl⟩
  rw [show ((buildConfigResponse st).get "network").keys =
      ["ssid", "staticIP", "ip"] from rfl]
  decide

/-- C7 counterexample: a button with action `http`/`ACTION_HTTP` and an
empty or missing url is NOT flagged — validation passes with no errors,
in both the coordinator's `validateConfig` and the firmware's
`validateConfiguration`. -/
theorem empty_url_button_not_flagged_counterexample :
    (c7cfg.buttons.get? 3).map (fun b => b.action) = some "http" ∧
    (c7cfg.buttons.get? 3).map (fun b => b.config.url) = some none ∧
    validateConfig c7cfg = (true, []) ∧
    (c7state.buttonConfigs.get? 3).map (fun b => b.action) = some ACTION_HTTP ∧
    validateConfiguration c7state = [] :=
  ⟨rfl, rfl, rfl, rfl, rfl⟩

/-- C7 amended: validation flags a button exactly when its url is
present, non-empty and fails URL validation; empty or missing urls are
never flagged; and saving is never blocked by validation — every
successfully parsed upload emits the save effect. -/
theorem url_validation_characterization
    (cfg : ConfigData) (i : Nat) (b : TSButton)
    (hb : cfg.buttons.get? i = some b)
    (ha : b.action = "http" ∨ b.action = "webhook") :
    ((b.config.url.getD "" ≠ "" ∧ tsIsValidUrl (b.config.url.getD "") = false) →
      ("Invalid URL for button " ++ toString i) ∈ (validateConfig cfg).2) ∧
    (cfg.network.staticIP = false →
      (∀ j b', cfg.buttons.get? j = some b' →
        b'.action = "http" ∨ b'.action = "webhook" →
        b'.config.url.getD "" = "" ∨ tsIsValidUrl (b'.config.url.getD "") = true) →
      validateConfig cfg = (true, [])) ∧
    (∀ (s : String) (st : DeviceState) (doc : Json),
      deserializeJson s = some doc → Effect.save ∈ (handleConfigUpload s st).2) := by
  refine ⟨?_, ?_, ?_⟩
  · intro hcond
    unfold validateConfig
    simp only []
    apply List.mem_append_right
    apply List.mem_filterMap.mpr
    refine ⟨(i, b), List.mk_mem_enum_iff_get?.mpr hb, ?_⟩
    rcases ha with h | h <;> simp [h, hcond.1, hcond.2]
  · intro hstatic hall
    unfold validateConfig
    simp only [hstatic]
    have hbtns : (cfg.buttons.enum.filterMap fun ib =>
        if ib.2.action = "http" ∨ ib.2.action = "webhook" then
          let u := ib.2.config.url.getD ""
          if u ≠ "" ∧ tsIsValidUrl u = false then
            some ("Invalid URL for button " ++ toString ib.1)
          else none
        else none) = [] := by
      apply List.filterMap_eq_nil.mpr
      rintro ⟨j, b'⟩ hjb
      have hj : cfg.buttons.get? j = some b' := List.mk_mem_enum_iff_get?.mp hjb
      by_cases hact : b'.action = "http" ∨ b'.action = "webhook"
      · rcases hall j b' hj hact with hu | hu
        · simp [hact, hu]
        · simp [hact, hu]
      · simp [hact]
    rw [hbtns]
    simp
  · intro s st doc hd
    unfold handleConfigUpload
    rw [hd]
    simp only [saveConfiguration]
    split <;> simp

/-- C7 witness: a non-empty invalid url is flagged; a config whose only
http button has no url validates clean. -/
theorem url_validation_characterization_witness :
    c7badcfg.buttons.get? 0 =
      some ⟨0, "Button 0", "http", ⟨some "notaurl", none, none, none⟩, true⟩ ∧
    ("Invalid URL for button " ++ toString 0) ∈ (validateConfig c7badcfg).2 ∧
    validateConfig c7cfg = (true, []) := by
  refine ⟨rfl, ?_, ?_⟩
  · exact (url_validation_characterization c7badcfg 0 _ rfl (Or.inl rfl)).1
      ⟨by decide, by decide⟩
  · refine (url_validation_characterization c7cfg 3 _ rfl (Or.inl rfl)).2.1 rfl ?_
    intro j b' hj ha'
    have hmem : b' ∈ c7cfg.buttons := List.get?_mem hj
    have hurl : b'.config.url = none := by
      have hall : ∀ x ∈ c7cfg.buttons, x.config.url = none := by decide
      exact hall b' hmem
    exact Or.inl (by rw [hurl]; rfl)

end Patcom
